import Mathlib

/-!
# Verification of the notflix-server Jellyfin protocol-compatibility core

Shallow embedding of the mapping engine of `erikbos/notflix-server`
(files `jellyfin.go`, `jellyfin/item.go`, `server.go`) in Lean 4, together
with theorems settling the specification claims about it.

Conventions of the embedding:
* Go strings are Lean `String`s; byte-level operations (slicing, `len`) are
  modelled on characters, which coincides with Go bytes for the ASCII data
  these code paths manipulate.
* Go `time.Time` values are modelled as `Int` seconds since the Unix epoch
  (the code only constructs, compares and orders them).
* Go floats (`float64` ratings and frame rates) are modelled as `ℚ` with
  `math.Round` translated to exact half-away-from-zero rounding.
* Fallible Go code returns `Option`/a result inductive; a Go runtime panic is
  a distinguished non-`ok` outcome.
* Lazily-loaded NFO descriptors (`lazyLoadNFO`) perform file IO in Go; an
  entity's `nfo : Option Nfo` field here models the post-load state (`some`
  when the sidecar file exists and parses, `none` otherwise), which is the
  only aspect the enclosing pure logic observes.
-/

namespace Notflix

/-! ## Go standard-library helpers used by the source -/

/-- `strconv.Atoi`: optional sign, then at least one digit.
(Go additionally errors when the value overflows `int`; the claims only use
small in-range values, so the embedding is unbounded.) -/
def goAtoi (s : String) : Option Int :=
  let (neg, digits) :=
    match s.data with
    | '-' :: rest => (true, rest)
    | '+' :: rest => (false, rest)
    | l => (false, l)
  if digits.isEmpty then none
  else if digits.all Char.isDigit then
    let n : Int := digits.foldl (fun acc c => acc * 10 + ((c.toNat - 48 : Nat) : Int)) 0
    some (if neg then -n else n)
  else none

/-- Core of `strings.Split` for a one-character separator (the only separators
this code splits on are `"_"`, `","`, `":"`, `"-"`, `"/"` and `" "`). -/
def splitChar (sep : Char) : List Char → List (List Char)
  | [] => [[]]
  | c :: cs =>
    let r := splitChar sep cs
    if c = sep then [] :: r
    else
      match r with
      | h :: t => (c :: h) :: t
      | [] => [[c]]

/-- `strings.Split(s, sep)` for the single-character separators used here. -/
def goSplit (sep : Char) (s : String) : List String :=
  (splitChar sep s.data).map String.mk

/-- `strings.Contains(s, sub)`. -/
def goContains (s sub : String) : Bool :=
  decide (sub.data <:+: s.data)

/-- `strings.HasPrefix(s, pre)` (character-list form, so it evaluates by
kernel reduction). -/
def goHasPfx (s pre : String) : Bool :=
  pre.data.isPrefixOf s.data

/-- `strings.TrimPrefix(s, pre)`: drop `pre` when it is a prefix, else `s`. -/
def goTrimPfx (s pre : String) : String :=
  if goHasPfx s pre then String.mk (s.data.drop pre.data.length) else s

/-- `strings.ToLower` (ASCII; character-list form for kernel reduction). -/
def goToLower (s : String) : String := String.mk (s.data.map Char.toLower)

/-- `strings.ToUpper` (ASCII; character-list form for kernel reduction). -/
def goToUpper (s : String) : String := String.mk (s.data.map Char.toUpper)

/-- `fmt` zero padding of a string to width `w` (the `%0Ns` verbs). -/
def padZero (w : Nat) (s : String) : String :=
  if w ≤ s.length then s
  else String.mk (List.replicate (w - s.length) '0') ++ s

/-- `fmt.Sprintf("%0Nd", n)`: zero-padded decimal, sign included in the width. -/
def goSprintfZeroInt (w : Nat) (n : Int) : String :=
  if n < 0 then "-" ++ padZero (w - 1) (toString (-n)) else padZero w (toString n)

/-- `math.Round`: round to the nearest integer, halves away from zero.
Expressed on the numerator/denominator so it evaluates by kernel reduction:
for `0 ≤ x` this is `⌊x + 1/2⌋ = ⌊(2*num + den) / (2*den)⌋`, and the negative
case mirrors it. -/
def goRound (x : ℚ) : Int :=
  if 0 ≤ x.num then (2 * x.num + (x.den : Int)).fdiv (2 * (x.den : Int))
  else -((-(2 * x.num) + (x.den : Int)).fdiv (2 * (x.den : Int)))

/-- `x * k` for an integer scale `k` (kernel-reducible product). -/
def ratScale (k : Int) (x : ℚ) : ℚ := mkRat (k * x.num) x.den

/-- `math.Round(x*10)/10`: the one-decimal rounding applied to ratings. -/
def roundTenth (x : ℚ) : ℚ := mkRat (goRound (ratScale 10 x)) 10

/-- `math.Round(x*100)/100`: the two-decimal rounding applied to frame rates. -/
def roundHundredth (x : ℚ) : ℚ := mkRat (goRound (ratScale 100 x)) 100

/-- `filepath.Base`: last path element after stripping trailing slashes. -/
def filepathBase (p : String) : String :=
  let cs := p.data
  if cs.isEmpty then "."
  else
    let trimmed := (cs.reverse.dropWhile (· = '/')).reverse
    if trimmed.isEmpty then "/"
    else String.mk (trimmed.reverse.takeWhile (· ≠ '/')).reverse

/-! ## `parseTime` (jellyfin.go / jellyfin/item.go)

The source tries a fixed list of layouts in order
(`"15:04:05"`, `"2006-01-02"`, `"2006/01/02"`, `"2006-01-02 15:04:05"`,
`"2006/01/02 15:04:05"`, `"02 Jan 2006"`, `"02 Jan 2006 15:04:05"`) and keeps
the first that parses.  The layouts are disjoint in shape, so the embedding
dispatches on shape.  Field widths are required exactly; a layout with no date
yields January 1 of year 0, as `time.Parse` does.  The result is Unix
seconds. -/

def isLeapYear (y : Int) : Bool :=
  (y % 4 = 0 ∧ y % 100 ≠ 0) ∨ y % 400 = 0

def daysInMonth (y m : Int) : Int :=
  if m = 2 then (if isLeapYear y then 29 else 28)
  else if m = 4 ∨ m = 6 ∨ m = 9 ∨ m = 11 then 30
  else 31

/-- Days from the Unix epoch of a proleptic-Gregorian civil date
(truncating division mirrors the C-family arithmetic of the reference
algorithm). -/
def daysFromCivil (y m d : Int) : Int :=
  let y' := if m ≤ 2 then y - 1 else y
  let era := (if 0 ≤ y' then y' else y' - 399).tdiv 400
  let yoe := y' - era * 400
  let mp := (m + 9) % 12
  let doy := (153 * mp + 2).tdiv 5 + d - 1
  let doe := yoe * 365 + yoe.tdiv 4 - yoe.tdiv 100 + doy
  era * 146097 + doe - 719468

def toUnix (y mo d h mi s : Int) : Int :=
  daysFromCivil y mo d * 86400 + h * 3600 + mi * 60 + s

/-- Fixed-width all-digit field. -/
def parseFixedNat (s : String) (w : Nat) : Option Int :=
  if s.length = w ∧ s.data.all Char.isDigit ∧ 0 < w then
    some (s.data.foldl (fun acc c => acc * 10 + ((c.toNat - 48 : Nat) : Int)) 0)
  else none

def parseClock (s : String) : Option (Int × Int × Int) :=
  match goSplit ':' s with
  | [hh, mm, ss] => do
    let h ← parseFixedNat hh 2
    let mi ← parseFixedNat mm 2
    let se ← parseFixedNat ss 2
    if h < 24 ∧ mi < 60 ∧ se < 60 then some (h, mi, se) else none
  | _ => none

def parseYMD (sep : Char) (s : String) : Option (Int × Int × Int) :=
  match goSplit sep s with
  | [ys, ms, ds] => do
    let y ← parseFixedNat ys 4
    let m ← parseFixedNat ms 2
    let d ← parseFixedNat ds 2
    if 1 ≤ m ∧ m ≤ 12 ∧ 1 ≤ d ∧ d ≤ daysInMonth y m then some (y, m, d) else none
  | _ => none

def monthByName (s : String) : Option Int :=
  if s = "Jan" then some 1 else if s = "Feb" then some 2
  else if s = "Mar" then some 3 else if s = "Apr" then some 4
  else if s = "May" then some 5 else if s = "Jun" then some 6
  else if s = "Jul" then some 7 else if s = "Aug" then some 8
  else if s = "Sep" then some 9 else if s = "Oct" then some 10
  else if s = "Nov" then some 11 else if s = "Dec" then some 12
  else none

/-- `"02 Jan 2006"`. -/
def parseDMY (ds mos ys : String) : Option (Int × Int × Int) := do
  let d ← parseFixedNat ds 2
  let mo ← monthByName mos
  let y ← parseFixedNat ys 4
  if 1 ≤ d ∧ d ≤ daysInMonth y mo then some (y, mo, d) else none

def parseDateOnly (s : String) : Option (Int × Int × Int) :=
  match parseYMD '-' s with
  | some r => some r
  | none => parseYMD '/' s

def parseTime (input : String) : Option Int :=
  match parseClock input with
  | some (h, mi, se) => some (toUnix 0 1 1 h mi se)
  | none =>
  match parseDateOnly input with
  | some (y, mo, d) => some (toUnix y mo d 0 0 0)
  | none =>
  match goSplit ' ' input with
  | [dpart, tpart] => do
    let (y, mo, d) ← parseDateOnly dpart
    let (h, mi, se) ← parseClock tpart
    some (toUnix y mo d h mi se)
  | [ds, mos, ys] => do
    let (y, mo, d) ← parseDMY ds mos ys
    some (toUnix y mo d 0 0 0)
  | [ds, mos, ys, tpart] => do
    let (y, mo, d) ← parseDMY ds mos ys
    let (h, mi, se) ← parseClock tpart
    some (toUnix y mo d h mi se)
  | _ => none

/-! ## NFO descriptor model (the parsed sidecar metadata, `Nfo` in Go) -/

structure NfoVideo where
  codec : String := ""
  bitrate : Int := 0
  durationInSeconds : Int := 0
  height : Int := 0
  width : Int := 0
  frameRate : ℚ := 0
deriving DecidableEq

structure NfoAudio where
  codec : String := ""
  bitrate : Int := 0
  channels : Int := 0
  language : String := ""
deriving DecidableEq

structure NfoStreamDetails where
  video : NfoVideo := {}
  audio : NfoAudio := {}
deriving DecidableEq

/-- `FileInfo` inside an NFO; `StreamDetails` is a nilable pointer in Go. -/
structure NfoFileInfo where
  streamDetails : Option NfoStreamDetails := none
deriving DecidableEq

structure Nfo where
  title : String := ""
  plot : String := ""
  tagline : String := ""
  season : String := ""
  episode : String := ""
  mpaa : String := ""
  rating : ℚ := 0
  genre : List String := []
  studio : String := ""
  year : Int := 0
  premiered : String := ""
  aired : String := ""
  fileInfo : Option NfoFileInfo := none
deriving DecidableEq

/-! ## Catalog model (the `collection` package; scanned library entities) -/

/-- `collection.ItemType` — modelled from the spec (the `collection` package
is not under `src/`): an item is categorized as a movie or a show. -/
inductive CatItemType where
  | movie
  | show
  | unknown
deriving DecidableEq

structure Episode where
  id : String := ""
  video : String := ""
  thumb : String := ""
  videoTS : Int := 0
  nfo : Option Nfo := none
deriving DecidableEq

structure Season where
  id : String := ""
  seasonNo : Int := 0
  poster : String := ""
  episodes : List Episode := []
deriving DecidableEq

structure CItem where
  id : String := ""
  name : String := ""
  year : Int := 0
  sortName : String := ""
  rating : ℚ := 0
  video : String := ""
  poster : String := ""
  fanart : String := ""
  firstVideo : Int := 0
  itemType : CatItemType := .unknown
  nfo : Option Nfo := none
  seasons : List Season := []
deriving DecidableEq

structure Collection where
  name_ : String := ""
  typ : String := ""
  sourceId : Int := 0
  directory : String := ""
  items : List CItem := []
deriving DecidableEq

/-- The immutable library snapshot the mapping core reads. -/
abbrev Library := List Collection

/-! ## Wire-shaped presentation records (`JFItem` and friends)

The `JFItem` struct itself is declared in a file of the repository that is
not under `src/`; the embedding keeps exactly the fields the verified mapping
logic reads or writes, with Go zero values as defaults.  Write-only protocol
constants (aspect ratios, capability flags, trailer lists, …) are omitted. -/

structure JFGenreItem where
  name : String := ""
  id : String := ""
deriving DecidableEq

structure JFStudio where
  name : String := ""
  id : String := ""
deriving DecidableEq

structure JFImageTags where
  primary : String := ""
deriving DecidableEq

structure JFMediaStream where
  index : Int := 0
  typ : String := ""
  isDefault : Bool := false
  language : String := ""
  averageFrameRate : ℚ := 0
  realFrameRate : ℚ := 0
  timeBase : String := ""
  sampleRate : Int := 0
  audioSpatialFormat : String := ""
  localizedDefault : String := ""
  localizedExternal : String := ""
  isInterlaced : Bool := false
  isAVC : Bool := false
  height : Int := 0
  width : Int := 0
  codec : String := ""
  codecTag : String := ""
  title : String := ""
  channelLayout : String := ""
  channels : Int := 0
  bitRate : Int := 0
  displayTitle : String := ""
deriving DecidableEq

structure JFMediaSource where
  id : String := ""
  eTag : String := ""
  name : String := ""
  path : String := ""
  typ : String := ""
  container : String := ""
  protocol : String := ""
  videoType : String := ""
  size : Int := 0
  supportsTranscoding : Bool := false
  supportsDirectStream : Bool := false
  supportsDirectPlay : Bool := false
  supportsProbing : Bool := false
  bitrate : Int := 0
  runTimeTicks : Int := 0
  formats : List String := []
  mediaStreams : List JFMediaStream := []
deriving DecidableEq

structure JFItem where
  id : String := ""
  etag : String := ""
  serverID : String := ""
  parentID : String := ""
  typ : String := ""
  name : String := ""
  originalTitle : String := ""
  sortName : String := ""
  forcedSortName : String := ""
  overview : String := ""
  taglines : List String := []
  seasonName : String := ""
  seriesName : String := ""
  seriesID : String := ""
  parentIndexNumber : Int := 0
  indexNumber : Int := 0
  officialRating : String := ""
  communityRating : ℚ := 0
  criticRating : ℚ := 0
  genres : List String := []
  genreItems : List JFGenreItem := []
  studios : List JFStudio := []
  productionYear : Int := 0
  premiereDate : Int := 0
  dateCreated : Int := 0
  isFolder : Bool := false
  childCount : Int := 0
  recursiveItemCount : Int := 0
  locationType : String := ""
  path : String := ""
  mediaType : String := ""
  videoType : String := ""
  container : String := ""
  collectionType : String := ""
  hasSubtitles : Bool := false
  imageTags : Option JFImageTags := none
  backdropImageTags : List String := []
  mediaSources : List JFMediaSource := []
deriving DecidableEq

/-! ## Identifier codec constants (jellyfin.go, jellyfin package) -/

def serverID : String := "2b11644442754f02a0c1e45d2a9f5c71"

def idPfxCollection : String := "collection_"
def idPfxShow : String := "show_"
def idPfxSeason : String := "season_"
def idPfxEpisode : String := "episode_"

/-- Modelled from the spec: the `jellyfin` package's prefix constant for the
per-user playlist pseudo-collection is declared in a file not under `src/`;
the spec names the kind "collection-playlist" and the dispatch in
`usersItemHandler` requires the token to contain no further separator. -/
def idPfxCollectionPlaylist : String := "collection-playlist_"

/-- Modelled from the spec: the `jellyfin` package's playlist prefix constant
is declared in a file not under `src/`. -/
def idPfxPlaylist : String := "playlist_"

def tagPfxRedirect : String := "redirect_"
def tagPfxFile : String := "file_"

/-- Modelled from the spec: the `idhash` package is not under `src/`.  A
deterministic one-way hash from an arbitrary string to an opaque token (the
spec requires only determinism and practical collision-freedom). -/
def idHash (s : String) : String :=
  toString (s.data.foldl (fun acc c => (acc * 131 + c.toNat) % 4294967296) 7)

/-- Modelled from the spec: `normalizeGenres` is declared in a file of the
repository not under `src/`; the spec says genre strings are normalized
(case folding) and de-duplicated. -/
def dedupKeepFirst : List String → List String
  | [] => []
  | x :: xs => x :: dedupKeepFirst (xs.filter (· ≠ x))
termination_by l => l.length
decreasing_by
  exact Nat.lt_succ_of_le (List.length_filter_le _ _)

/-- Modelled from the spec: genre normalization (see `dedupKeepFirst`). -/
def normalizeGenres (gs : List String) : List String :=
  dedupKeepFirst (gs.map goToLower)

/-! ## Metadata enricher (`enrichResponseWithNFO`, jellyfin.go:921-1007) -/

/-- Step 1 (jellyfin.go:926-927): `Name` and `Overview` are assigned
unconditionally from the descriptor. -/
def enrichTitlePlot (r : JFItem) (n : Nfo) : JFItem :=
  { r with name := n.title, overview := n.plot }

/-- Step 2 (jellyfin.go:928-930): tagline, only when non-empty. -/
def enrichTagline (r : JFItem) (n : Nfo) : JFItem :=
  if n.tagline ≠ "" then { r with taglines := [n.tagline] } else r

/-- Step 3 (jellyfin.go:933-936): season naming/numbering; `strconv.Atoi`'s
zero result is stored on a parse error. -/
def enrichSeasonNo (r : JFItem) (n : Nfo) : JFItem :=
  if n.season ≠ "" then
    { r with seasonName := "Season " ++ n.season,
             parentIndexNumber := (goAtoi n.season).getD 0 }
  else r

/-- Step 4 (jellyfin.go:937-939): episode number. -/
def enrichEpisodeNo (r : JFItem) (n : Nfo) : JFItem :=
  if n.episode ≠ "" then { r with indexNumber := (goAtoi n.episode).getD 0 } else r

/-- Step 5 (jellyfin.go:940-942): synthesized zero-padded sort name, only
when both season and episode numbers are known and non-zero. -/
def enrichSortName (r : JFItem) (n : Nfo) : JFItem :=
  if r.parentIndexNumber ≠ (0 : Int) ∧ r.indexNumber ≠ (0 : Int) then
    { r with sortName :=
        padZero 3 n.season ++ " - " ++ padZero 4 n.episode ++ " - " ++ n.title }
  else r

/-- Step 6 (jellyfin.go:945): age rating copied verbatim (unconditionally). -/
def enrichOfficialRating (r : JFItem) (n : Nfo) : JFItem :=
  { r with officialRating := n.mpaa }

/-- Step 7 (jellyfin.go:953-955): community rating rounded to one decimal,
only when non-zero. -/
def enrichCommunityRating (r : JFItem) (n : Nfo) : JFItem :=
  if n.rating ≠ 0 then { r with communityRating := roundTenth n.rating } else r

/-- Step 8 (jellyfin.go:957-968): normalized genres; `Genres` is replaced
while `GenreItems` is appended to. -/
def enrichGenres (r : JFItem) (n : Nfo) : JFItem :=
  if n.genre ≠ [] then
    let normalizedGenres := normalizeGenres n.genre
    { r with genres := normalizedGenres,
             genreItems := r.genreItems ++
               normalizedGenres.map (fun g => { name := g, id := idHash g }) }
  else r

/-- Step 9 (jellyfin.go:970-977): studio as a single-element list. -/
def enrichStudio (r : JFItem) (n : Nfo) : JFItem :=
  if n.studio ≠ "" then
    { r with studios := [{ name := n.studio, id := idHash n.studio }] }
  else r

/-- Step 10 (jellyfin.go:993-995): production year, only when non-zero. -/
def enrichYear (r : JFItem) (n : Nfo) : JFItem :=
  if n.year ≠ 0 then { r with productionYear := n.year } else r

/-- Step 11 (jellyfin.go:997-1001): premiere date from `Premiered`; parse
failure leaves the prior value. -/
def enrichPremiered (r : JFItem) (n : Nfo) : JFItem :=
  if n.premiered ≠ "" then
    match parseTime n.premiered with
    | some t => { r with premiereDate := t }
    | none => r
  else r

/-- Step 12 (jellyfin.go:1002-1006): premiere date from `Aired`. -/
def enrichAired (r : JFItem) (n : Nfo) : JFItem :=
  if n.aired ≠ "" then
    match parseTime n.aired with
    | some t => { r with premiereDate := t }
    | none => r
  else r

/-- `enrichResponseWithNFO(&response, n)` (jellyfin.go:921-1007): the twelve
guarded update stanzas above, in source order.  A `none` descriptor is the
Go `nil` pointer, for which the function returns without touching the
record. -/
def enrichResponseWithNFO (response : JFItem) (n? : Option Nfo) : JFItem :=
  match n? with
  | none => response
  | some n =>
    enrichAired (enrichPremiered (enrichYear (enrichStudio (enrichGenres
      (enrichCommunityRating (enrichOfficialRating (enrichSortName
        (enrichEpisodeNo (enrichSeasonNo (enrichTagline
          (enrichTitlePlot response n) n) n) n) n) n) n) n) n) n) n) n

/-! ## Media source synthesizer (`buildMediaSource`, jellyfin.go:1009-1125)

`buildMediaSource` can hit a Go runtime panic: when stream details are
present it slices `Audio.Language[0:3]`, which is out of range whenever the
language value is shorter than 3 bytes.  The embedding returns `none` for
that panic and `some` for every normal return. -/

def buildMediaSource (filename : String) (n? : Option Nfo) :
    Option (List JFMediaSource) :=
  let basename := filepathBase filename
  let mediasource : JFMediaSource :=
    { id := idHash filename, eTag := idHash filename,
      name := basename, path := basename,
      typ := "Default", container := "mp4", protocol := "File",
      videoType := "VideoFile", size := 4264940672,
      supportsTranscoding := true, supportsDirectStream := true,
      supportsDirectPlay := true, supportsProbing := true,
      formats := [] }
  match n? with
  | none => some [mediasource]
  | some n =>
  match n.fileInfo with
  | none => some [mediasource]
  | some fi =>
  match fi.streamDetails with
  | none => some [mediasource]
  | some sd =>
    let nfoVideo := sd.video
    let mediasource :=
      { mediasource with
          bitrate := nfoVideo.bitrate,
          runTimeTicks := nfoVideo.durationInSeconds * 10000000 }
    if sd.audio.language.length < 3 then
      none
    else
      let language := String.mk (sd.audio.language.data.take 3)
      let videostream : JFMediaStream :=
        { index := 0, typ := "Video", isDefault := true, language := language,
          averageFrameRate := roundHundredth nfoVideo.frameRate,
          realFrameRate := roundHundredth nfoVideo.frameRate,
          timeBase := "1/16000", height := nfoVideo.height,
          width := nfoVideo.width, codec := nfoVideo.codec }
      let videostream :=
        if goToLower nfoVideo.codec = "x264" ∨ goToLower nfoVideo.codec = "h264" then
          { videostream with codec := "h264", codecTag := "avc1" }
        else if goToLower nfoVideo.codec = "hevc" then
          { videostream with codec := "hevc", codecTag := "hvc1" }
        else
          videostream
      let nfoAudio := sd.audio
      let audiostream : JFMediaStream :=
        { index := 1, typ := "Audio", language := language,
          timeBase := "1/48000", sampleRate := 48000,
          audioSpatialFormat := "None", localizedDefault := "Default",
          localizedExternal := "External", isInterlaced := false,
          isAVC := false, isDefault := true,
          bitRate := nfoAudio.bitrate, channels := nfoAudio.channels }
      let audiostream :=
        if nfoAudio.channels = 2 then
          { audiostream with title := "Stereo", channelLayout := "stereo" }
        else if nfoAudio.channels = 6 then
          { audiostream with title := "5.1 Channel", channelLayout := "5.1" }
        else
          audiostream
      let audiostream :=
        if goToLower nfoAudio.codec = "ac3" then
          { audiostream with codec := "ac3", codecTag := "ac-3" }
        else if goToLower nfoAudio.codec = "aac" then
          { audiostream with codec := "aac", codecTag := "mp4a" }
        else
          audiostream
      let audiostream :=
        { audiostream with
            displayTitle := audiostream.title ++ " - " ++ goToUpper audiostream.codec }
      some [{ mediasource with mediaStreams := [videostream, audiostream] }]

/-! ## Identifier codec (jellyfin.go:1127-1139, jellyfin/item.go:76-127) -/

/-- `genCollectionID` (jellyfin.go:1127): prefix then `Sprintf("%d", id)`. -/
def genCollectionID (id : Int) : String :=
  idPfxCollection ++ toString id

/-- The five prefixed external-id kinds dispatched by the `jellyfin`
package's `usersItemHandler`. -/
inductive ItemIdKind where
  | collection
  | collectionPlaylist
  | season
  | episode
  | playlist
deriving DecidableEq

def itemIdPfx : ItemIdKind → String
  | .collection => idPfxCollection
  | .collectionPlaylist => idPfxCollectionPlaylist
  | .season => idPfxSeason
  | .episode => idPfxEpisode
  | .playlist => idPfxPlaylist

/-- Encoding an external id: `<type-prefix-with-separator><internal-id>`
(as in `genCollectionID` and the `itemprefix_episode + e.Id` call sites). -/
def encodeItemId (k : ItemIdKind) (x : String) : String :=
  itemIdPfx k ++ x

/-- The prefix dispatch of `usersItemHandler` (jellyfin/item.go:76-127):
`strings.Split(itemId, "_")` must yield exactly two fields; the first field
plus the separator selects the branch, and the called builder recovers the
internal id by trimming the prefix (everything after the separator).
`none` means the id is not dispatched to a prefix branch (it is treated as a
plain catalog item id, or — for a recognized two-field shape with an unknown
token — rejected; see `usersItemHandler` below). -/
def decodeItemId (s : String) : Option (ItemIdKind × String) :=
  match goSplit '_' s with
  | [p0, p1] =>
    let pre := p0 ++ "_"
    if pre = idPfxCollection then some (.collection, p1)
    else if pre = idPfxCollectionPlaylist then some (.collectionPlaylist, p1)
    else if pre = idPfxSeason then some (.season, p1)
    else if pre = idPfxEpisode then some (.episode, p1)
    else if pre = idPfxPlaylist then some (.playlist, p1)
    else none
  | _ => none

/-! ## Library lookups (jellyfin.go:1141-1183) -/

/-- Modelled from the spec: `getItem`/`GetItemByID`'s per-collection scan is
declared in a file not under `src/`; the spec describes `findEntityById` as a
linear full-library scan for the item with the given id. -/
def getItemByID (lib : Library) (itemId : String) :
    Option (Collection × CItem) :=
  lib.findSome? fun c =>
    c.items.findSome? fun i =>
      if i.id = itemId then some (c, i) else none

/-- Modelled from the spec: `getCollection` is declared in a file not under
`src/`; the collection's external id is generated from `SourceId` via
`Sprintf("%d", id)`, so lookup matches the decimal rendering of
`SourceId`. -/
def getCollection (lib : Library) (collectionid : String) : Option Collection :=
  lib.find? fun c => toString c.sourceId = collectionid

/-- `getSeasonByID` (jellyfin.go:1150): trim the season prefix, then scan
collections, items and seasons for the id. -/
def getSeasonByID (lib : Library) (seasonId : String) :
    Option (Collection × CItem × Season) :=
  let sid := goTrimPfx seasonId idPfxSeason
  lib.findSome? fun c =>
    c.items.findSome? fun i =>
      i.seasons.findSome? fun s =>
        if s.id = sid then some (c, i, s) else none

/-- `getEpisodeByID` (jellyfin.go:1166): trim the episode prefix, then scan
collections, items, seasons and episodes for the id. -/
def getEpisodeByID (lib : Library) (episodeId : String) :
    Option (Collection × CItem × Season × Episode) :=
  let eid := goTrimPfx episodeId idPfxEpisode
  lib.findSome? fun c =>
    c.items.findSome? fun i =>
      i.seasons.findSome? fun s =>
        s.episodes.findSome? fun e =>
          if e.id = eid then some (c, i, s, e) else none

/-! ## Item builders (jellyfin.go:722-908)

`time.Now()` timestamps (request wall clock, written into collection and
season records) are modelled as the constant `0`; no verified claim observes
them. -/

/-- `buildJFItemCollection` (jellyfin.go:722): `none` models the error
returns ("malformed collection id" / "collection not found"). -/
def buildJFItemCollection (lib : Library) (itemid : String) : Option JFItem :=
  if ¬ goHasPfx itemid idPfxCollection then none
  else
    match getCollection lib (goTrimPfx itemid idPfxCollection) with
    | none => none
    | some c =>
      let itemID := genCollectionID c.sourceId
      let response : JFItem :=
        { name := c.name_, serverID := serverID, id := itemID,
          etag := idHash itemID, dateCreated := 0,
          typ := "CollectionFolder", isFolder := true,
          childCount := c.items.length, locationType := "FileSystem",
          path := "/collection", mediaType := "Unknown",
          parentID := "e9d5075a555c1cbc394eec4cef295274" }
      let response :=
        if c.typ = "movies" then { response with collectionType := "movies" }
        else if c.typ = "shows" then { response with collectionType := "tvshows" }
        else response
      some { response with sortName := response.collectionType }

/-- `buildJFItem` (jellyfin.go:771): movie or show record.  `none` models the
runtime panic that `buildMediaSource` can raise for a movie (see there);
every normal Go return is `some`. -/
def buildJFItem (c : Collection) (i : CItem) (listView : Bool) : Option JFItem :=
  let response : JFItem :=
    { id := i.id, parentID := idHash c.name_, serverID := serverID,
      name := i.name, originalTitle := i.name, sortName := i.name,
      forcedSortName := i.name, etag := idHash i.id,
      dateCreated := i.firstVideo.tdiv 1000,
      premiereDate := i.firstVideo.tdiv 1000 }
  let response :=
    { response with
        imageTags := some { primary := "primary_" ++ i.id },
        backdropImageTags := [response.id] }
  if c.typ = "movies" then
    let response :=
      { response with
          typ := "Movie", isFolder := false,
          locationType := "FileSystem", path := "file.mp4",
          mediaType := "Video", videoType := "VideoFile",
          container := "mov,mp4,m4a" }
    let filename := c.directory ++ "/" ++ i.name ++ "/" ++ i.video
    match buildMediaSource filename i.nfo with
    | none => none
    | some ms =>
      let response := { response with mediaSources := ms }
      let response := if ¬ listView then { response with imageTags := none } else response
      some (enrichResponseWithNFO response i.nfo)
  else
    let response :=
      if c.typ = "shows" then
        { response with
            typ := "Series", isFolder := true,
            childCount := i.seasons.length }
      else response
    some (enrichResponseWithNFO response i.nfo)

/-- `buildJFItemSeason` (jellyfin.go:827): `none` models the
"could not find season" error return. -/
def buildJFItemSeason (lib : Library) (seasonid : String) : Option JFItem :=
  match getSeasonByID lib seasonid with
  | none => none
  | some (_, show_, season) =>
    some
      { typ := "Season", serverID := serverID, parentID := show_.id,
        seriesID := show_.id,
        id := idPfxSeason ++ seasonid,
        etag := idHash seasonid, seriesName := show_.name,
        indexNumber := season.seasonNo,
        name := "Season " ++ toString season.seasonNo,
        sortName := goSprintfZeroInt 4 season.seasonNo,
        isFolder := true, locationType := "FileSystem",
        mediaType := "Unknown", childCount := season.episodes.length,
        recursiveItemCount := season.episodes.length,
        dateCreated := 0, premiereDate := 0,
        imageTags := some { primary := "season" } }

/-- Result of a Go function returning `(value, error)` whose body may also
panic. -/
inductive GoResult (α : Type) where
  | ok (val : α)
  | err
  | panics
deriving DecidableEq

/-- The `ok` payload of a `GoResult`, when there is one. -/
def GoResult.toOption : GoResult α → Option α
  | .ok a => some a
  | _ => none

/-- `buildJFItemEpisode` (jellyfin.go:860-908).  The show's descriptor is
applied first, then the age/community ratings are cleared ("we do not want
ratings from series apply to an episode"), and only then is the episode's
own descriptor applied, overriding what the show pass set.  Finally the
episode's media source is attached (which may panic, see
`buildMediaSource`). -/
def buildJFItemEpisode (lib : Library) (episodeid : String) : GoResult JFItem :=
  match getEpisodeByID lib episodeid with
  | none => .err
  | some (_, show_, _, episode) =>
    let response : JFItem :=
      { typ := "Episode", id := episodeid, etag := idHash episodeid,
        serverID := serverID, seriesName := show_.name,
        seriesID := idHash show_.name, locationType := "FileSystem",
        path := "episode.mp4", isFolder := false, mediaType := "Video",
        videoType := "VideoFile", container := "mov,mp4,m4a",
        hasSubtitles := true,
        dateCreated := episode.videoTS.tdiv 1000,
        premiereDate := episode.videoTS.tdiv 1000,
        imageTags := some { primary := "episode" } }
    let response := enrichResponseWithNFO response show_.nfo
    let response := { response with officialRating := "", communityRating := 0 }
    let response := enrichResponseWithNFO response episode.nfo
    match buildMediaSource episode.video episode.nfo with
    | none => .panics
    | some ms => .ok { response with mediaSources := ms }

/-! ## Single-item handler (`usersItemHandler`, jellyfin.go:240-286)

The handler in `jellyfin/item.go:67-136` has the same shape with two extra
recognized playlist prefixes (whose constants and builders are not under
`src/`); the fully-in-source legacy handler is embedded.  The outcome type
records the HTTP-level result. -/

inductive ItemHandlerOutcome where
  | okItem (item : JFItem)
  | notFound (msg : String)
  | internalError (msg : String)
  | panics
deriving DecidableEq

def usersItemHandler (lib : Library) (itemId : String) : ItemHandlerOutcome :=
  match goSplit '_' itemId with
  | [p0, _] =>
    if p0 = "collection" then
      match buildJFItemCollection lib itemId with
      | none => .notFound "Could not find collection"
      | some it => .okItem it
    else if p0 = "season" then
      match buildJFItemSeason lib itemId with
      | none => .notFound "Could not find season"
      | some it => .okItem it
    else if p0 = "episode" then
      match buildJFItemEpisode lib itemId with
      | .err => .notFound "Could not find episode"
      | .panics => .panics
      | .ok it => .okItem it
    else
      .internalError "Unknown item prefix"
  | _ =>
    match getItemByID lib itemId with
    | none => .notFound "Item not found"
    | some (c, i) =>
      match buildJFItem c i false with
      | none => .panics
      | some it => .okItem it

/-! ## Query pipeline (jellyfin/item.go:166-475)

Request query parameters are modelled as the raw strings `url.Values.Get`
returns (absent parameter = `""`). -/

structure QueryParams where
  searchTerm : String := ""
  parentId : String := ""
  includeItemTypes : String := ""
  years : String := ""
  sortBy : String := ""
  sortOrder : String := ""
  startIndex : String := ""
  limit : String := ""
deriving DecidableEq

/-- `applyItemFilter` (jellyfin/item.go:374-406): optional include-type list
(only `Movie`/`Series` ever match) and optional year list; filter kinds
compose with AND, values within one kind with OR. -/
def applyItemFilter (i : CItem) (q : QueryParams) : Bool :=
  (if q.includeItemTypes ≠ "" then
    (goSplit ',' q.includeItemTypes).any fun t =>
      (t = "Movie" ∧ i.itemType = .movie) ∨ (t = "Series" ∧ i.itemType = .show)
   else true) &&
  (if q.years ≠ "" then
    (goSplit ',' q.years).any fun y =>
      match goAtoi y with
      | some v => i.year = v
      | none => false
   else true)

/-- The sort-name fallback that the comparison closure of
`applyItemSorting` writes back into the slice (jellyfin/item.go:424-427):
`items[i].SortName = items[i].Name` when the sort name is empty.  The
write is a *persistent* in-place mutation of the slice element, observed
by every later comparison and visible in the returned list. -/
def patchSortName (x : JFItem) : JFItem :=
  if x.sortName = "" then { x with sortName := x.name } else x

/-- Go's byte-wise `<` on strings, character-wise here (identical on the
ASCII data these sort keys carry), written out on the character lists so
that the kernel can evaluate it (the library's `String.decidableLT`
instance does not reduce). -/
def goStrLess : List Char → List Char → Bool
  | _, [] => false
  | [], _ :: _ => true
  | a :: as, b :: bs =>
    if a < b then true else if b < a then false else goStrLess as bs

/-- The key-by-key comparison of the closure (jellyfin/item.go:429-458) on
the current field values: the first non-equal requested key decides,
unknown keys are skipped (only logged), exhausting the keys yields false.
The closure's `patchSortName` side effect on its first argument is applied
by `goInsertionSort` before the element is compared: the write happens on
every call (`strings.Split` yields at least one field, so the per-field
loop body always runs) and is idempotent, so hoisting it out of the loop
is exact. -/
def sortKeyLess (fields : List String) (desc : Bool) (a b : JFItem) : Bool :=
  match fields with
  | [] => false
  | f :: rest =>
    let fl := goToLower f
    if fl = "default" ∨ fl = "seriessortname" ∨ fl = "sortname" then
      if a.sortName ≠ b.sortName then
        (if desc then goStrLess b.sortName.data a.sortName.data
         else goStrLess a.sortName.data b.sortName.data)
      else sortKeyLess rest desc a b
    else if fl = "productionyear" then
      if a.productionYear ≠ b.productionYear then
        (if desc then decide (b.productionYear < a.productionYear)
         else decide (a.productionYear < b.productionYear))
      else sortKeyLess rest desc a b
    else if fl = "criticrating" then
      if a.criticRating ≠ b.criticRating then
        (if desc then decide (b.criticRating < a.criticRating)
         else decide (a.criticRating < b.criticRating))
      else sortKeyLess rest desc a b
    else sortKeyLess rest desc a b

/-- Agreement on every requested sort key (the current field values): the
sense in which two records are "equal on every requested key" under a
given sort-field list. -/
def sameSortKeys (fields : List String) (a b : JFItem) : Bool :=
  match fields with
  | [] => true
  | f :: rest =>
    let fl := goToLower f
    (if fl = "default" ∨ fl = "seriessortname" ∨ fl = "sortname" then
      decide (a.sortName = b.sortName)
     else if fl = "productionyear" then
      decide (a.productionYear = b.productionYear)
     else if fl = "criticrating" then
      decide (a.criticRating = b.criticRating)
     else true) && sameSortKeys rest a b

/-- The inner loop of Go's `insertionSort` (which `sort.SliceStable` runs
on slices of at most 20 elements, and on the 20-element blocks of longer
slices): the moving element `x` — already carrying the closure's
`patchSortName` write — walks left past the reversed prefix, one swap at a
time, while the closure reports it less than its current left neighbour;
prefix elements are read as stored and never modified by the walk. -/
def goInsert (lt : JFItem → JFItem → Bool) (x : JFItem) :
    List JFItem → List JFItem → List JFItem
  | [], acc => x :: acc
  | y :: revp, acc =>
    if lt x y then goInsert lt x revp (y :: acc)
    else revp.reverse ++ y :: x :: acc

/-- Go's `insertionSort(data, 0, n)` over the stateful comparison closure:
each element after the first is patched by the closure when it is inserted
(it is the first argument of at least one `Less` call), and the patched
value persists in the slice; the original first element is never a first
argument of the closure and is therefore never patched. -/
def goInsertionSort (lt : JFItem → JFItem → Bool) :
    List JFItem → List JFItem → List JFItem
  | pre, [] => pre
  | pre, x :: rest =>
    goInsertionSort lt (goInsert lt (patchSortName x) pre.reverse []) rest

/-- Stable insertion of `x` into `l`: `x` goes before the first element it is
strictly less than, hence after every element it ties with. -/
def insertOrdered (lt : α → α → Bool) (x : α) : List α → List α
  | [] => [x]
  | y :: ys => if lt x y then x :: y :: ys else y :: insertOrdered lt x ys

/-- `sort.SliceStable` modelled as a stable insertion sort (performed
left-to-right, so elements that compare equal keep their original relative
order; for the strict-weak-order comparators arising here this produces the
same permutation as Go's stable sort, which is itself insertion sort on
small slices). -/
def sliceStable (lt : α → α → Bool) (l : List α) : List α :=
  l.foldl (fun acc x => insertOrdered lt x acc) []

/-- `applyItemSorting` (jellyfin/item.go:409-462): no `sortBy` leaves the
scan order untouched; otherwise `sort.SliceStable` under the stateful
comparison closure with one shared ascending/descending flag, modelled by
the insertion sort that `SliceStable` executes on slices of at most 20
elements.  (For longer slices Go insertion-sorts 20-element blocks and
stably merges them; under the pure strict-weak-order comparisons arising
when every record's sort-name fallback is already applied, every stable
sort produces this same permutation.) -/
def applyItemSorting (items : List JFItem) (q : QueryParams) : List JFItem :=
  if q.sortBy = "" then items
  else
    match items with
    | [] => []
    | x :: rest =>
      goInsertionSort
        (sortKeyLess (goSplit ',' q.sortBy) (q.sortOrder = "Descending"))
        [x] rest

/-- First stanza of `applyItemPaginating` (jellyfin/item.go:466-469): the
start index applies only when it parses and `0 ≤ start < len(items)`. -/
def applyStartIndex (items : List JFItem) (q : QueryParams) : List JFItem :=
  match goAtoi q.startIndex with
  | some s => if 0 ≤ s ∧ s < (items.length : Int) then items.drop s.toNat else items
  | none => items

/-- Second stanza of `applyItemPaginating` (jellyfin/item.go:470-473): the
limit applies only when it parses and `0 < limit < len(items)` for the
already start-trimmed list. -/
def applyLimit (items : List JFItem) (q : QueryParams) : List JFItem :=
  match goAtoi q.limit with
  | some l => if 0 < l ∧ l < (items.length : Int) then items.take l.toNat else items
  | none => items

/-- `applyItemPaginating` (jellyfin/item.go:465-475). -/
def applyItemPaginating (items : List JFItem) (q : QueryParams) : List JFItem :=
  applyLimit (applyStartIndex items q) q

/-- Candidate selection of `usersItemsHandler` (jellyfin/item.go:183-203):
optional collection scope via `parentId`, case-insensitive substring search,
then `applyItemFilter`; records are built by `makeJFItem`, which lives in a
file not under `src/` and is therefore a parameter `make`. -/
def usersItemsCandidates (make : Collection → CItem → JFItem) (lib : Library)
    (q : QueryParams) : List JFItem :=
  let searchC :=
    if q.parentId ≠ "" then getCollection lib (goTrimPfx q.parentId idPfxCollection)
    else none
  lib.flatMap fun c =>
    if (match searchC with
        | some sc => decide (sc.sourceId ≠ c.sourceId)
        | none => false) then []
    else
      c.items.filterMap fun i =>
        if (q.searchTerm = "" ∨ goContains (goToLower i.name) (goToLower q.searchTerm)) ∧
            applyItemFilter i q then
          some (make c i)
        else none

/-- The list-endpoint response envelope. -/
structure ItemsResponse where
  items : List JFItem
  totalRecordCount : Int
  startIndex : Int
deriving DecidableEq

/-- Response assembly of `usersItemsHandler` (jellyfin/item.go:205-213):
`totalRecordCount` is taken from the candidate list before sorting and
pagination. -/
def assembleItemsResponse (items : List JFItem) (q : QueryParams) : ItemsResponse :=
  { items := applyItemPaginating (applyItemSorting items q) q,
    totalRecordCount := (items.length : Int),
    startIndex := 0 }

/-- `usersItemsHandler` (jellyfin/item.go:166-214) for the ordinary listing
path.  (The early return for a `parentId` carrying the playlist-collection
prefix serves a playlist overview built by code not under `src/` and is not
modelled.) -/
def usersItemsResponse (make : Collection → CItem → JFItem) (lib : Library)
    (q : QueryParams) : ItemsResponse :=
  assembleItemsResponse (usersItemsCandidates make lib q) q

/-- `items[i].PremiereDate.After(items[j].PremiereDate)`: the comparison
closure of `usersItemsLatestHandler`'s `sort.SliceStable`. -/
def premiereAfter (a b : JFItem) : Bool :=
  decide (b.premiereDate < a.premiereDate)

/-- Candidate selection of `usersItemsLatestHandler`
(jellyfin/item.go:229-248): collection scope and `applyItemFilter` only (no
search term). -/
def latestCandidates (make : Collection → CItem → JFItem) (lib : Library)
    (q : QueryParams) : List JFItem :=
  let searchC :=
    if q.parentId ≠ "" then getCollection lib (goTrimPfx q.parentId idPfxCollection)
    else none
  lib.flatMap fun c =>
    if (match searchC with
        | some sc => decide (sc.sourceId ≠ c.sourceId)
        | none => false) then []
    else
      c.items.filterMap fun i =>
        if applyItemFilter i q then some (make c i) else none

/-- `usersItemsLatestHandler` (jellyfin/item.go:223-258): filter, then a
stable sort by descending premiere date (no `applyItemSorting` stage), then
pagination. -/
def usersItemsLatest (make : Collection → CItem → JFItem) (lib : Library)
    (q : QueryParams) : List JFItem :=
  applyItemPaginating (sliceStable premiereAfter (latestCandidates make lib q)) q

/-! ## Image resolver (`itemsImagesHandler`, jellyfin/item.go:641-725) -/

/-- Outcome of an image request.  `file` is `serveFile` (the raw local
file), `image` is `serveImage` (the quality-reducing poster transform);
both carry the `cache-control` header value set before serving, if any. -/
inductive ImageOutcome where
  | redirect (url : String) (cacheControl : Option String)
  | file (path : String) (cacheControl : Option String)
  | image (path : String) (quality : Int) (cacheControl : Option String)
  | notFound (msg : String)
  | internalError (msg : String)
  | unknownTypeNoop
deriving DecidableEq

def ImageOutcome.cacheControl? : ImageOutcome → Option String
  | .redirect _ cc => cc
  | .file _ cc => cc
  | .image _ _ cc => cc
  | _ => none

/-- A locally-resolved or redirected response (as opposed to an error
outcome). -/
def ImageOutcome.isServed : ImageOutcome → Bool
  | .redirect _ _ => true
  | .file _ _ => true
  | .image _ _ _ => true
  | _ => false

/-- `trimPrefix` (jellyfin/item.go:835-840): everything after the first
separator, or the whole string when it has none.  (The separator constant
`itemprefix_separator` is declared in a file not under `src/`; it is the
`"_"` the prefixes end in.) -/
def trimToAfterSep (s : String) : String :=
  match goSplit '_' s with
  | [] => s
  | [_] => s
  | _ :: rest => String.intercalate "_" rest

def longLivedCache : String := "max-age=2592000"

/-- `itemsImagesHandler` (jellyfin/item.go:641-725).  Inputs are the `tag`
query parameter and the `item`/`type` path variables.  Note the episode
branch serves the thumbnail without setting `cache-control`, unlike every
other served path. -/
def itemsImagesHandler (lib : Library) (imageQualityPoster : Int)
    (itemId imageType tag : String) : ImageOutcome :=
  if goHasPfx tag tagPfxRedirect then
    .redirect (goTrimPfx tag tagPfxRedirect) (some longLivedCache)
  else if goHasPfx tag tagPfxFile then
    .file (goTrimPfx tag tagPfxFile) (some longLivedCache)
  else
    match goSplit '_' itemId with
    | [p0, _] =>
      if p0 = "season" then
        match getSeasonByID lib (trimToAfterSep itemId) with
        | none => .notFound "Could not find season"
        | some (c, item, season) =>
          if imageType = "Primary" then
            .image (c.directory ++ "/" ++ item.name ++ "/" ++ season.poster)
              imageQualityPoster (some longLivedCache)
          else .unknownTypeNoop
      else if p0 = "episode" then
        match getEpisodeByID lib (trimToAfterSep itemId) with
        | none => .notFound "Item not found (could not find episode)"
        | some (c, item, _, episode) =>
          .file (c.directory ++ "/" ++ item.name ++ "/" ++ episode.thumb) none
      else .internalError "Unknown image item prefix"
    | _ =>
      match getItemByID lib itemId with
      | none => .notFound "Item not found"
      | some (c, i) =>
        if imageType = "Primary" then
          .image (c.directory ++ "/" ++ i.name ++ "/" ++ i.poster)
            imageQualityPoster (some longLivedCache)
        else if imageType = "Backdrop" then
          .file (c.directory ++ "/" ++ i.name ++ "/" ++ i.fanart)
            (some longLivedCache)
        else .notFound "Item image not found"

/-- An image request that reaches the episode-thumbnail branch of
`itemsImagesHandler` (no redirect/file tag, an `episode`-prefixed two-field
id, and a resolvable episode). -/
def isEpisodeThumbReq (lib : Library) (itemId tag : String) : Bool :=
  !goHasPfx tag tagPfxRedirect && !goHasPfx tag tagPfxFile &&
  (match goSplit '_' itemId with
   | [p0, _] => p0 = "episode" && (getEpisodeByID lib (trimToAfterSep itemId)).isSome
   | _ => false)

/-! ## Concrete fixture data for counterexamples and witnesses -/

/-- An episode descriptor that carries its own ratings. -/
def nfoEp1 : Nfo := { title := "The Pilot", mpaa := "TV-14", rating := 8 }

/-- A show-level descriptor with series ratings. -/
def nfoShow1 : Nfo :=
  { title := "ShowX", mpaa := "TV-MA", rating := 6, genre := ["Drama"] }

def ep1 : Episode :=
  { id := "e1", video := "e1.mp4", thumb := "thumb.jpg", videoTS := 1700000000000,
    nfo := some nfoEp1 }

def season1 : Season :=
  { id := "sea1", seasonNo := 1, poster := "poster.jpg", episodes := [ep1] }

def show1 : CItem :=
  { id := "s1", name := "ShowX", year := 2020, itemType := .show,
    poster := "p.jpg", fanart := "f.jpg", nfo := some nfoShow1,
    seasons := [season1] }

def tvCol : Collection :=
  { name_ := "TV", typ := "shows", sourceId := 2, directory := "/tv",
    items := [show1] }

def lib1 : Library := [tvCol]

/-- A record with pre-existing name/overview/tagline (C5 fixture). -/
def recC5 : JFItem := { name := "X", overview := "Y", taglines := ["Z"] }

/-- A descriptor whose `Title`, `Plot` and `Tagline` are all empty. -/
def nfoEmpty : Nfo := {}

/-- Ten distinct presentation records (C3 fixture). -/
def items10 : List JFItem := (List.range 10).map fun i => { id := toString i }

/-- "Alpha", year 2000, no explicit sort name beyond the name fallback
(C4 fixture; `makeJFItem` — not under `src/` — fills `SortName` with the
plain name per the spec's synthesized-sort-name fallback). -/
def itemAlphaA : JFItem :=
  { id := "A", name := "Alpha", sortName := "Alpha", productionYear := 2000 }

/-- "Alpha", year 1999 (C4 fixture). -/
def itemAlphaB : JFItem :=
  { id := "B", name := "Alpha", sortName := "Alpha", productionYear := 1999 }

/-- Two records equal on every sort key but distinct (C4 stability fixture). -/
def itemDupX : JFItem :=
  { id := "X", name := "Alpha", sortName := "Alpha", productionYear := 2000 }

def itemDupY : JFItem :=
  { id := "Y", name := "Alpha", sortName := "Alpha", productionYear := 2000 }

def qSortNameYear : QueryParams :=
  { sortBy := "sortName,productionYear", sortOrder := "Ascending" }

/-- Stream details with an unrecognized video codec and a 3+-byte language
(C6 fixture). -/
def sdVp9 : NfoStreamDetails :=
  { video := { codec := "vp9" },
    audio := { codec := "aac", channels := 2, language := "english" } }

def fiVp9 : NfoFileInfo := { streamDetails := some sdVp9 }

def nfoVp9 : Nfo := { fileInfo := some fiVp9 }

/-- Stream details with a recognized codec (C6 witness fixture). -/
def sdX264 : NfoStreamDetails :=
  { video := { codec := "x264" },
    audio := { codec := "ac3", channels := 6, language := "eng" } }

def fiX264 : NfoFileInfo := { streamDetails := some sdX264 }

def nfoX264 : Nfo := { fileInfo := some fiX264 }

/-- Stream details whose audio language is shorter than 3 bytes (C10
fixture: `Language[0:3]` panics). -/
def sdShortLang : NfoStreamDetails := { audio := { language := "en" } }

def fiShortLang : NfoFileInfo := { streamDetails := some sdShortLang }

def nfoShortLang : Nfo := { fileInfo := some fiShortLang }

end Notflix

namespace Notflix

/-! # Theorems

Helper lemmas first, then one theorem per specification claim (with its
counterexample and witness where required). -/

/-! ## Projection lemmas for the enrichment steps -/

theorem enrichTagline_taglines (r : JFItem) (n : Nfo) :
    (enrichTagline r n).taglines = if n.tagline = "" then r.taglines else [n.tagline] := by
  unfold enrichTagline
  split <;> simp_all

theorem enrichTagline_keeps (r : JFItem) (n : Nfo) :
    (enrichTagline r n).name = r.name ∧ (enrichTagline r n).overview = r.overview ∧
    (enrichTagline r n).officialRating = r.officialRating ∧
    (enrichTagline r n).communityRating = r.communityRating := by
  unfold enrichTagline
  split <;> simp

theorem enrichOfficialRating_keeps (r : JFItem) (n : Nfo) :
    (enrichOfficialRating r n).name = r.name ∧
    (enrichOfficialRating r n).overview = r.overview ∧
    (enrichOfficialRating r n).taglines = r.taglines ∧
    (enrichOfficialRating r n).communityRating = r.communityRating :=
  ⟨rfl, rfl, rfl, rfl⟩

theorem enrichSeasonNo_keeps (r : JFItem) (n : Nfo) :
    (enrichSeasonNo r n).name = r.name ∧ (enrichSeasonNo r n).overview = r.overview ∧
    (enrichSeasonNo r n).taglines = r.taglines ∧
    (enrichSeasonNo r n).officialRating = r.officialRating ∧
    (enrichSeasonNo r n).communityRating = r.communityRating := by
  unfold enrichSeasonNo
  split <;> simp

theorem enrichEpisodeNo_keeps (r : JFItem) (n : Nfo) :
    (enrichEpisodeNo r n).name = r.name ∧ (enrichEpisodeNo r n).overview = r.overview ∧
    (enrichEpisodeNo r n).taglines = r.taglines ∧
    (enrichEpisodeNo r n).officialRating = r.officialRating ∧
    (enrichEpisodeNo r n).communityRating = r.communityRating := by
  unfold enrichEpisodeNo
  split <;> simp

theorem enrichSortName_keeps (r : JFItem) (n : Nfo) :
    (enrichSortName r n).name = r.name ∧ (enrichSortName r n).overview = r.overview ∧
    (enrichSortName r n).taglines = r.taglines ∧
    (enrichSortName r n).officialRating = r.officialRating ∧
    (enrichSortName r n).communityRating = r.communityRating := by
  unfold enrichSortName
  split <;> simp

theorem enrichCommunityRating_keeps (r : JFItem) (n : Nfo) :
    (enrichCommunityRating r n).name = r.name ∧
    (enrichCommunityRating r n).overview = r.overview ∧
    (enrichCommunityRating r n).taglines = r.taglines ∧
    (enrichCommunityRating r n).officialRating = r.officialRating := by
  unfold enrichCommunityRating
  split <;> simp

theorem enrichCommunityRating_communityRating (r : JFItem) (n : Nfo) :
    (enrichCommunityRating r n).communityRating =
      if n.rating = 0 then r.communityRating else roundTenth n.rating := by
  unfold enrichCommunityRating
  split <;> simp_all

theorem enrichGenres_keeps (r : JFItem) (n : Nfo) :
    (enrichGenres r n).name = r.name ∧ (enrichGenres r n).overview = r.overview ∧
    (enrichGenres r n).taglines = r.taglines ∧
    (enrichGenres r n).officialRating = r.officialRating ∧
    (enrichGenres r n).communityRating = r.communityRating := by
  unfold enrichGenres
  split <;> simp

theorem enrichStudio_keeps (r : JFItem) (n : Nfo) :
    (enrichStudio r n).name = r.name ∧ (enrichStudio r n).overview = r.overview ∧
    (enrichStudio r n).taglines = r.taglines ∧
    (enrichStudio r n).officialRating = r.officialRating ∧
    (enrichStudio r n).communityRating = r.communityRating := by
  unfold enrichStudio
  split <;> simp

theorem enrichYear_keeps (r : JFItem) (n : Nfo) :
    (enrichYear r n).name = r.name ∧ (enrichYear r n).overview = r.overview ∧
    (enrichYear r n).taglines = r.taglines ∧
    (enrichYear r n).officialRating = r.officialRating ∧
    (enrichYear r n).communityRating = r.communityRating := by
  unfold enrichYear
  split <;> simp

theorem enrichPremiered_keeps (r : JFItem) (n : Nfo) :
    (enrichPremiered r n).name = r.name ∧ (enrichPremiered r n).overview = r.overview ∧
    (enrichPremiered r n).taglines = r.taglines ∧
    (enrichPremiered r n).officialRating = r.officialRating ∧
    (enrichPremiered r n).communityRating = r.communityRating := by
  unfold enrichPremiered
  split
  · split <;> simp
  · simp

theorem enrichAired_keeps (r : JFItem) (n : Nfo) :
    (enrichAired r n).name = r.name ∧ (enrichAired r n).overview = r.overview ∧
    (enrichAired r n).taglines = r.taglines ∧
    (enrichAired r n).officialRating = r.officialRating ∧
    (enrichAired r n).communityRating = r.communityRating := by
  unfold enrichAired
  split
  · split <;> simp
  · simp

/-- The enriched record's `Name` is always the descriptor's `Title`. -/
theorem enrich_name (r : JFItem) (n : Nfo) :
    (enrichResponseWithNFO r (some n)).name = n.title := by
  unfold enrichResponseWithNFO
  rw [(enrichAired_keeps _ _).1, (enrichPremiered_keeps _ _).1,
    (enrichYear_keeps _ _).1, (enrichStudio_keeps _ _).1,
    (enrichGenres_keeps _ _).1, (enrichCommunityRating_keeps _ _).1,
    (enrichOfficialRating_keeps _ _).1,
    (enrichSortName_keeps _ _).1, (enrichEpisodeNo_keeps _ _).1,
    (enrichSeasonNo_keeps _ _).1, (enrichTagline_keeps _ _).1]
  rfl

/-- The enriched record's `Overview` is always the descriptor's `Plot`. -/
theorem enrich_overview (r : JFItem) (n : Nfo) :
    (enrichResponseWithNFO r (some n)).overview = n.plot := by
  unfold enrichResponseWithNFO
  rw [(enrichAired_keeps _ _).2.1, (enrichPremiered_keeps _ _).2.1,
    (enrichYear_keeps _ _).2.1, (enrichStudio_keeps _ _).2.1,
    (enrichGenres_keeps _ _).2.1, (enrichCommunityRating_keeps _ _).2.1,
    (enrichOfficialRating_keeps _ _).2.1,
    (enrichSortName_keeps _ _).2.1, (enrichEpisodeNo_keeps _ _).2.1,
    (enrichSeasonNo_keeps _ _).2.1, (enrichTagline_keeps _ _).2.1]
  rfl

/-- The tagline rule is guarded: an empty descriptor tagline leaves the
record's taglines unchanged. -/
theorem enrich_taglines (r : JFItem) (n : Nfo) :
    (enrichResponseWithNFO r (some n)).taglines =
      if n.tagline = "" then r.taglines else [n.tagline] := by
  unfold enrichResponseWithNFO
  rw [(enrichAired_keeps _ _).2.2.1, (enrichPremiered_keeps _ _).2.2.1,
    (enrichYear_keeps _ _).2.2.1, (enrichStudio_keeps _ _).2.2.1,
    (enrichGenres_keeps _ _).2.2.1, (enrichCommunityRating_keeps _ _).2.2.1,
    (enrichOfficialRating_keeps _ _).2.2.1,
    (enrichSortName_keeps _ _).2.2.1, (enrichEpisodeNo_keeps _ _).2.2.1,
    (enrichSeasonNo_keeps _ _).2.2.1, enrichTagline_taglines]
  rfl

/-- The enriched record's age rating is always the descriptor's `Mpaa`,
whatever it was before. -/
theorem enrich_officialRating (r : JFItem) (n : Nfo) :
    (enrichResponseWithNFO r (some n)).officialRating = n.mpaa := by
  unfold enrichResponseWithNFO
  rw [(enrichAired_keeps _ _).2.2.2.1, (enrichPremiered_keeps _ _).2.2.2.1,
    (enrichYear_keeps _ _).2.2.2.1, (enrichStudio_keeps _ _).2.2.2.1,
    (enrichGenres_keeps _ _).2.2.2.1, (enrichCommunityRating_keeps _ _).2.2.2]
  rfl

/-- The enriched record's community rating is the rounded descriptor rating
when the descriptor has one, else the incoming value. -/
theorem enrich_communityRating (r : JFItem) (n : Nfo) :
    (enrichResponseWithNFO r (some n)).communityRating =
      if n.rating = 0 then r.communityRating else roundTenth n.rating := by
  unfold enrichResponseWithNFO
  rw [(enrichAired_keeps _ _).2.2.2.2, (enrichPremiered_keeps _ _).2.2.2.2,
    (enrichYear_keeps _ _).2.2.2.2, (enrichStudio_keeps _ _).2.2.2.2,
    (enrichGenres_keeps _ _).2.2.2.2, enrichCommunityRating_communityRating]
  congr 1
  rw [(enrichOfficialRating_keeps _ _).2.2.2,
    (enrichSortName_keeps _ _).2.2.2.2, (enrichEpisodeNo_keeps _ _).2.2.2.2,
    (enrichSeasonNo_keeps _ _).2.2.2.2, (enrichTagline_keeps _ _).2.2.2]
  rfl

/-! ## Stable-sort lemmas -/

theorem mem_insertOrdered {lt : α → α → Bool} {x z : α} :
    ∀ {l : List α}, z ∈ insertOrdered lt x l → z = x ∨ z ∈ l := by
  intro l
  induction l with
  | nil => simp [insertOrdered]
  | cons y ys ih =>
    simp only [insertOrdered]
    split
    · intro h
      rcases List.mem_cons.mp h with h | h
      · exact Or.inl h
      · exact Or.inr h
    · intro h
      rcases List.mem_cons.mp h with h | h
      · exact Or.inr (by simp [h])
      · rcases ih h with h | h
        · exact Or.inl h
        · exact Or.inr (by simp [h])

theorem insertOrdered_pairwise {lt : α → α → Bool}
    (hasym : ∀ a b, lt a b = true → lt b a = false)
    (htrans : ∀ a b c, lt b a = false → lt c b = false → lt c a = false)
    {l : List α} (x : α) (hl : l.Pairwise (fun a b => lt b a = false)) :
    (insertOrdered lt x l).Pairwise (fun a b => lt b a = false) := by
  induction l with
  | nil => simp [insertOrdered]
  | cons y ys ih =>
    rcases List.pairwise_cons.mp hl with ⟨hy, hys⟩
    simp only [insertOrdered]
    split
    · rename_i hxy
      refine List.pairwise_cons.mpr ⟨?_, hl⟩
      intro z hz
      rcases List.mem_cons.mp hz with rfl | hz
      · exact hasym _ _ hxy
      · exact htrans x y z (hasym _ _ hxy) (hy z hz)
    · rename_i hxy
      refine List.pairwise_cons.mpr ⟨?_, ih hys⟩
      intro z hz
      rcases mem_insertOrdered hz with rfl | hz
      · exact Bool.not_eq_true _ ▸ hxy
      · exact hy z hz

theorem sliceStable_pairwise {lt : α → α → Bool}
    (hasym : ∀ a b, lt a b = true → lt b a = false)
    (htrans : ∀ a b c, lt b a = false → lt c b = false → lt c a = false)
    (l : List α) :
    (sliceStable lt l).Pairwise (fun a b => lt b a = false) := by
  suffices h : ∀ (l acc : List α), acc.Pairwise (fun a b => lt b a = false) →
      (l.foldl (fun acc x => insertOrdered lt x acc) acc).Pairwise
        (fun a b => lt b a = false) by
    exact h l [] List.Pairwise.nil
  intro l
  induction l with
  | nil => intro acc hacc; exact hacc
  | cons x xs ih =>
    intro acc hacc
    exact ih _ (insertOrdered_pairwise hasym htrans x hacc)

theorem insertOrdered_perm (lt : α → α → Bool) (x : α) :
    ∀ (l : List α), (insertOrdered lt x l).Perm (x :: l) := by
  intro l
  induction l with
  | nil => simp [insertOrdered]
  | cons y ys ih =>
    simp only [insertOrdered]
    split
    · exact List.Perm.refl _
    · exact (List.Perm.cons y ih).trans (List.Perm.swap x y ys)

theorem sliceStable_perm (lt : α → α → Bool) (l : List α) :
    (sliceStable lt l).Perm l := by
  suffices h : ∀ (l acc : List α),
      (l.foldl (fun acc x => insertOrdered lt x acc) acc).Perm (acc ++ l) by
    simpa using h l []
  intro l
  induction l with
  | nil => intro acc; simp
  | cons x xs ih =>
    intro acc
    refine (ih (insertOrdered lt x acc)).trans ?_
    refine (List.Perm.append ((insertOrdered_perm lt x acc).trans
      (List.perm_append_singleton x acc).symm) (List.Perm.refl xs)).trans ?_
    simp

theorem insertOrdered_allFalse {lt : α → α → Bool} {x : α} :
    ∀ {l : List α}, (∀ y ∈ l, lt x y = false) → insertOrdered lt x l = l ++ [x] := by
  intro l
  induction l with
  | nil => simp [insertOrdered]
  | cons y ys ih =>
    intro h
    simp only [insertOrdered]
    rw [if_neg, ih]
    · simp
    · intro z hz
      exact h z (by simp [hz])
    · simp [h y (by simp)]

theorem sliceStable_allFalse {lt : α → α → Bool} {l : List α}
    (h : ∀ a b, a ∈ l → b ∈ l → lt a b = false) : sliceStable lt l = l := by
  suffices haux : ∀ (l acc : List α),
      (∀ a b, a ∈ l → b ∈ l → lt a b = false) →
      (∀ a b, a ∈ l → b ∈ acc → lt a b = false) →
      l.foldl (fun acc x => insertOrdered lt x acc) acc = acc ++ l by
    simpa using haux l [] h (by simp)
  intro l
  induction l with
  | nil => intro acc _ _; simp
  | cons x xs ih =>
    intro acc hl hacc
    simp only [List.foldl_cons]
    rw [insertOrdered_allFalse
        (fun y hy => hacc x y (List.mem_cons_self x xs) hy), ih (acc ++ [x])]
    · simp
    · intro a b ha hb
      exact hl a b (by simp [ha]) (by simp [hb])
    · intro a b ha hb
      rcases List.mem_append.mp hb with hb | hb
      · exact hacc a b (by simp [ha]) hb
      · simp only [List.mem_singleton] at hb
        rw [hb]
        exact hl a x (by simp [ha]) (List.mem_cons_self x xs)

/-! ## `strings.Split` lemmas -/

theorem splitChar_ne_nil (sep : Char) (l : List Char) : splitChar sep l ≠ [] := by
  induction l with
  | nil => exact fun h => List.noConfusion h
  | cons c cs ih =>
    simp only [splitChar]
    split
    · simp
    · match h : splitChar sep cs with
      | [] => exact absurd h ih
      | a :: t => simp

theorem splitChar_no_sep (sep : Char) :
    ∀ (l : List Char), (∀ c ∈ l, c ≠ sep) → splitChar sep l = [l] := by
  intro l
  induction l with
  | nil => intro _; rfl
  | cons c cs ih =>
    intro h
    simp only [splitChar]
    rw [if_neg (h c (by simp)), ih]
    intro z hz
    exact h z (by simp [hz])

theorem splitChar_append_sep (sep : Char) :
    ∀ (a b : List Char), (∀ c ∈ a, c ≠ sep) →
      splitChar sep (a ++ sep :: b) = a :: splitChar sep b := by
  intro a b
  induction a with
  | nil => intro _; simp [splitChar]
  | cons c cs ih =>
    intro h
    have hc : ¬ (c = sep) := h c (by simp)
    have hih := ih (fun z hz => h z (by simp [hz]))
    simp [splitChar, hc, hih]

/-! ## Claim C5 — merge guards for Title/Plot/Tagline -/

/-- **C5, counterexample.**  A descriptor with empty `Title`, `Plot` and
`Tagline` does *not* leave the record's name and overview unchanged:
`enrichResponseWithNFO` copies `Title` and `Plot` unconditionally, clearing
the existing values ("X"/"Y" become ""); only the tagline survives. -/
theorem c5_counterexample :
    (enrichResponseWithNFO recC5 (some nfoEmpty)).name = "" ∧
    (enrichResponseWithNFO recC5 (some nfoEmpty)).overview = "" ∧
    recC5.name = "X" ∧ recC5.overview = "Y" ∧
    (enrichResponseWithNFO recC5 (some nfoEmpty)).taglines = ["Z"] := by
  decide

/-- **C5 (amended).**  Of the Title/Plot/Tagline rules only the tagline is
guarded on a non-empty source field: merging always sets the record's name
to the descriptor's `Title` and its overview to the descriptor's `Plot`
(so empty values overwrite), while an empty `Tagline` leaves the record's
taglines unchanged. -/
theorem c5_title_plot_tagline (r : JFItem) (n : Nfo) :
    (enrichResponseWithNFO r (some n)).name = n.title ∧
    (enrichResponseWithNFO r (some n)).overview = n.plot ∧
    (enrichResponseWithNFO r (some n)).taglines =
      (if n.tagline = "" then r.taglines else [n.tagline]) :=
  ⟨enrich_name r n, enrich_overview r n, enrich_taglines r n⟩

/-! ## Claim C1 — episode two-phase enrichment and rating clearing -/

/-- **C1, counterexample.**  For an episode whose own descriptor carries
`Mpaa = "TV-14"` and `Rating = 8`, the built record carries that non-empty
age rating and non-zero community rating: the forcible clearing happens
*between* the show pass and the episode pass, not after both. -/
theorem c1_counterexample :
    (buildJFItemEpisode lib1 "episode_e1").toOption.map JFItem.officialRating =
      some "TV-14" ∧
    (buildJFItemEpisode lib1 "episode_e1").toOption.map JFItem.communityRating =
      some 8 := by
  decide

/-- **C1 (amended).**  Episode enrichment applies the show's descriptor,
then clears the age-rating and community-rating fields, then applies the
episode's own descriptor.  Hence the built record's ratings are exactly
those supplied by the episode's own descriptor — empty/zero when it
supplies none — and never inherited from the show. -/
theorem c1_episode_ratings (lib : Library) (episodeid : String)
    (c : Collection) (sh : CItem) (sea : Season) (ep : Episode) (r : JFItem)
    (hfind : getEpisodeByID lib episodeid = some (c, sh, sea, ep))
    (hok : buildJFItemEpisode lib episodeid = .ok r) :
    r.officialRating = (match ep.nfo with
      | some n => n.mpaa
      | none => "") ∧
    r.communityRating = (match ep.nfo with
      | some n => if n.rating = 0 then 0 else roundTenth n.rating
      | none => 0) := by
  unfold buildJFItemEpisode at hok
  simp only [hfind] at hok
  rcases hms : buildMediaSource ep.video ep.nfo with _ | ms
  · simp only [hms] at hok
    exact GoResult.noConfusion hok
  · simp only [hms] at hok
    cases hok
    rcases hnfo : ep.nfo with _ | n
    · exact ⟨rfl, rfl⟩
    · constructor
      · exact enrich_officialRating _ n
      · rw [enrich_communityRating]

/-- **C1 witness.** -/
theorem c1_witness :
    (buildJFItemEpisode lib1 "episode_e1").toOption.map JFItem.communityRating =
      some (roundTenth 8) := by
  match hok : buildJFItemEpisode lib1 "episode_e1" with
  | .err => exact absurd hok (by decide)
  | .panics => exact absurd hok (by decide)
  | .ok r =>
    have h := c1_episode_ratings lib1 "episode_e1" tvCol show1 season1 ep1 r
      (by decide) hok
    have hc : r.communityRating = roundTenth 8 := h.2
    simp [GoResult.toOption, hc]

/-! ## Claim C4 — multi-key stable sorting -/

theorem patchSortName_eq_self (x : JFItem)
    (h : x.sortName ≠ "" ∨ x.sortName = x.name) : patchSortName x = x := by
  rcases h with h | h
  · unfold patchSortName
    rw [if_neg h]
  · have h2 : { x with sortName := x.name } =
        ({ x with sortName := x.sortName } : JFItem) := by
      rw [h]
    unfold patchSortName
    split
    · exact h2
    · rfl

/-- The Go insertion walk splits the prefix: the moving element lands after
the elements it did not pass (`l`) and before the elements the closure
reported it strictly less than (`r`). -/
theorem goInsert_shape (lt : JFItem → JFItem → Bool) (x : JFItem) :
    ∀ (revp acc : List JFItem), ∃ l r, revp.reverse = l ++ r ∧
      (∀ y ∈ r, lt x y = true) ∧
      goInsert lt x revp acc = l ++ x :: (r ++ acc) := by
  intro revp
  induction revp with
  | nil =>
    intro acc
    exact ⟨[], [], by simp, by simp, rfl⟩
  | cons y revp' ih =>
    intro acc
    by_cases hxy : lt x y = true
    · rcases ih (y :: acc) with ⟨l, r, hlr, hall, hres⟩
      refine ⟨l, r ++ [y], ?_, ?_, ?_⟩
      · rw [List.reverse_cons, hlr, List.append_assoc]
      · intro z hz
        rcases List.mem_append.mp hz with hz | hz
        · exact hall z hz
        · rw [List.mem_singleton.mp hz]
          exact hxy
      · simp only [goInsert, if_pos hxy, hres, List.append_assoc,
          List.singleton_append]
    · refine ⟨revp'.reverse ++ [y], [], ?_, by simp, ?_⟩
      · rw [List.reverse_cons, List.append_nil]
      · simp only [goInsert, if_neg hxy, List.append_assoc,
          List.singleton_append, List.nil_append]

theorem sameSortKeys_symm (fields : List String) (a b : JFItem) :
    sameSortKeys fields a b = sameSortKeys fields b a := by
  induction fields with
  | nil => rfl
  | cons f rest ih =>
    simp only [sameSortKeys, ih]
    congr 1
    by_cases h1 : goToLower f = "default" ∨ goToLower f = "seriessortname" ∨
        goToLower f = "sortname"
    · rw [if_pos h1, if_pos h1]
      exact decide_eq_decide.mpr eq_comm
    · rw [if_neg h1, if_neg h1]
      by_cases h2 : goToLower f = "productionyear"
      · rw [if_pos h2, if_pos h2]
        exact decide_eq_decide.mpr eq_comm
      · rw [if_neg h2, if_neg h2]
        by_cases h3 : goToLower f = "criticrating"
        · rw [if_pos h3, if_pos h3]
          exact decide_eq_decide.mpr eq_comm
        · rw [if_neg h3, if_neg h3]

theorem sameSortKeys_trans (fields : List String) :
    ∀ {a b c : JFItem}, sameSortKeys fields a b = true →
      sameSortKeys fields b c = true → sameSortKeys fields a c = true := by
  induction fields with
  | nil => intro a b c _ _; rfl
  | cons f rest ih =>
    intro a b c h1 h2
    simp only [sameSortKeys, Bool.and_eq_true] at h1 h2 ⊢
    obtain ⟨h1k, h1r⟩ := h1
    obtain ⟨h2k, h2r⟩ := h2
    refine ⟨?_, ih h1r h2r⟩
    by_cases hc1 : goToLower f = "default" ∨ goToLower f = "seriessortname" ∨
        goToLower f = "sortname"
    · rw [if_pos hc1] at h1k h2k ⊢
      exact decide_eq_true ((of_decide_eq_true h1k).trans (of_decide_eq_true h2k))
    · rw [if_neg hc1] at h1k h2k ⊢
      by_cases hc2 : goToLower f = "productionyear"
      · rw [if_pos hc2] at h1k h2k ⊢
        exact decide_eq_true ((of_decide_eq_true h1k).trans (of_decide_eq_true h2k))
      · rw [if_neg hc2] at h1k h2k ⊢
        by_cases hc3 : goToLower f = "criticrating"
        · rw [if_pos hc3] at h1k h2k ⊢
          exact decide_eq_true
            ((of_decide_eq_true h1k).trans (of_decide_eq_true h2k))
        · rw [if_neg hc3]

/-- Records that agree on every requested key never compare strictly. -/
theorem sameSortKeys_not_lt (fields : List String) (desc : Bool) :
    ∀ {a b : JFItem}, sameSortKeys fields a b = true →
      sortKeyLess fields desc a b = false := by
  induction fields with
  | nil => intro a b _; rfl
  | cons f rest ih =>
    intro a b h
    simp only [sameSortKeys, Bool.and_eq_true] at h
    obtain ⟨hk, hr⟩ := h
    simp only [sortKeyLess]
    by_cases hc1 : goToLower f = "default" ∨ goToLower f = "seriessortname" ∨
        goToLower f = "sortname"
    · rw [if_pos hc1] at hk ⊢
      rw [if_neg (by simp [of_decide_eq_true hk])]
      exact ih hr
    · rw [if_neg hc1] at hk ⊢
      by_cases hc2 : goToLower f = "productionyear"
      · rw [if_pos hc2] at hk ⊢
        rw [if_neg (by simp [of_decide_eq_true hk])]
        exact ih hr
      · rw [if_neg hc2] at hk ⊢
        by_cases hc3 : goToLower f = "criticrating"
        · rw [if_pos hc3] at hk ⊢
          rw [if_neg (by simp [of_decide_eq_true hk])]
          exact ih hr
        · rw [if_neg hc3]
          exact ih hr

/-- One insertion preserves, in order, the sub-list of records tied with
any fixed reference record `u`: the inserted record goes after every
record it ties with. -/
theorem goInsert_filter (fields : List String) (desc : Bool) (u x : JFItem)
    (p : List JFItem) :
    (goInsert (sortKeyLess fields desc) x p.reverse []).filter
        (fun y => sameSortKeys fields y u) =
      p.filter (fun y => sameSortKeys fields y u) ++
        (if sameSortKeys fields x u then [x] else []) := by
  rcases goInsert_shape (sortKeyLess fields desc) x p.reverse [] with
    ⟨l, r, hlr, hall, hres⟩
  rw [List.reverse_reverse] at hlr
  rw [hres, hlr, List.append_nil]
  by_cases hx : sameSortKeys fields x u = true
  · have hr : r.filter (fun y => sameSortKeys fields y u) = [] := by
      rw [List.filter_eq_nil_iff]
      intro y hy hyu
      have hxy : sameSortKeys fields x y = true :=
        sameSortKeys_trans fields hx (by rw [sameSortKeys_symm]; exact hyu)
      have hlt := sameSortKeys_not_lt fields desc hxy
      rw [hall y hy] at hlt
      exact Bool.noConfusion hlt
    simp [List.filter_append, List.filter_cons, hx, hr]
  · simp [List.filter_append, List.filter_cons, hx]

/-- The whole insertion sort preserves, in order, the sub-list of records
tied with any fixed reference record, provided the sort-name fallback is
already applied to the inserted records (then `patchSortName` is the
identity on them). -/
theorem goInsertionSort_filter (fields : List String) (desc : Bool)
    (u : JFItem) :
    ∀ (rest pre : List JFItem),
      (∀ x ∈ rest, x.sortName ≠ "" ∨ x.sortName = x.name) →
      (goInsertionSort (sortKeyLess fields desc) pre rest).filter
          (fun y => sameSortKeys fields y u) =
        pre.filter (fun y => sameSortKeys fields y u) ++
          rest.filter (fun y => sameSortKeys fields y u) := by
  intro rest
  induction rest with
  | nil =>
    intro pre _
    simp [goInsertionSort]
  | cons x rest' ih =>
    intro pre hH
    simp only [goInsertionSort]
    rw [patchSortName_eq_self x (hH x (by simp))]
    rw [ih _ (fun z hz => hH z (by simp [hz]))]
    rw [goInsert_filter]
    by_cases hx : sameSortKeys fields x u = true <;>
      simp [List.filter_cons, hx, List.append_assoc]

/-- **C4.**  First conjunct: two items both named "Alpha" (sort name filled
with the plain name by the record builder, per the spec's synthesized
sort-name fallback), A with year 2000 and B with year 1999, sorted with
`sortBy=sortName,productionYear&sortOrder=Ascending`, come back as `[B, A]`
— the tie on the name key is broken by the production-year key.  Second
conjunct: the sort is stable on mixed lists: for every reference record
`u`, the sub-list of records that agree with `u` on every requested key is
returned in its original relative order.  The hypothesis says each record's
sort-name fallback has already been applied (`SortName` non-empty or equal
to the name), which holds for every record the builder produces; it makes
the closure's in-place `patchSortName` write a no-op, so the stateful
comparator behaves as the pure strict-weak-order key comparison. -/
theorem c4_sorting :
    (applyItemSorting [itemAlphaA, itemAlphaB] qSortNameYear =
      [itemAlphaB, itemAlphaA]) ∧
    (∀ (items : List JFItem) (q : QueryParams) (u : JFItem),
      (∀ x ∈ items, x.sortName ≠ "" ∨ x.sortName = x.name) →
      (applyItemSorting items q).filter
          (fun y => sameSortKeys (goSplit ',' q.sortBy) y u) =
        items.filter (fun y => sameSortKeys (goSplit ',' q.sortBy) y u)) := by
  constructor
  · decide
  · intro items q u hH
    unfold applyItemSorting
    split
    · rfl
    · match items, hH with
      | [], _ => rfl
      | x :: rest, hH =>
        rw [goInsertionSort_filter (goSplit ',' q.sortBy) _ u rest [x]
          (fun z hz => hH z (by simp [hz]))]
        by_cases hx : sameSortKeys (goSplit ',' q.sortBy) x u = true <;>
          simp [List.filter_cons, hx]

/-- **C4 witness**: a mixed list — two records tied with the reference on
both keys around one that is not — keeps the tied records in their
original relative order. -/
theorem c4_witness :
    (applyItemSorting [itemDupX, itemAlphaB, itemDupY] qSortNameYear).filter
        (fun y => sameSortKeys (goSplit ',' qSortNameYear.sortBy) y itemDupX) =
      [itemDupX, itemAlphaB, itemDupY].filter
        (fun y => sameSortKeys (goSplit ',' qSortNameYear.sortBy) y itemDupX) :=
  c4_sorting.2 [itemDupX, itemAlphaB, itemDupY] qSortNameYear itemDupX
    (by decide)

/-! ## Claim C10 — media source totality needs a 3-byte language -/

/-- **C10.**  When stream details are present, `buildMediaSource` slices the
audio language as `Language[0:3]`: for a language shorter than 3 bytes this
is out of range (a runtime panic, `none` here) and no media source record is
returned; with at least 3 bytes the function returns one. -/
theorem c10_language_slicing (fname : String) (n : Nfo)
    (fi : NfoFileInfo) (sd : NfoStreamDetails)
    (h1 : n.fileInfo = some fi) (h2 : fi.streamDetails = some sd) :
    (sd.audio.language.length < 3 → buildMediaSource fname (some n) = none) ∧
    (3 ≤ sd.audio.language.length →
      (buildMediaSource fname (some n)).isSome = true) := by
  unfold buildMediaSource
  simp only [h1, h2]
  constructor
  · intro h
    rw [if_pos h]
  · intro h
    rw [if_neg (by omega)]
    rfl

/-- **C10 witness.** -/
theorem c10_witness :
    buildMediaSource "f.mp4" (some nfoShortLang) = none ∧
    (buildMediaSource "f.mp4" (some nfoX264)).isSome = true :=
  ⟨(c10_language_slicing "f.mp4" nfoShortLang fiShortLang sdShortLang rfl rfl).1
      (by decide),
   (c10_language_slicing "f.mp4" nfoX264 fiX264 sdX264 rfl rfl).2 (by decide)⟩

/-! ## Claim C8 — unrecognized id prefix outcome -/

/-- **C8, counterexample.**  An id that contains the separator and begins
with an unrecognized prefix token but splits into *three* fields is not
answered with an internal error: it falls through to the plain-item lookup
and yields a not-found outcome. -/
theorem c8_counterexample :
    ('_' ∈ "foo_bar_baz".data) ∧
    usersItemHandler [] "foo_bar_baz" = .notFound "Item not found" ∧
    usersItemHandler [] "foo_bar_baz" ≠ .internalError "Unknown item prefix" := by
  decide

/-- **C8 (amended).**  A single-item request whose id splits on the
separator into exactly two fields and whose prefix token is unrecognized is
answered with the internal-error (server-error) outcome, not a not-found or
client-input outcome; ids with more than one separator instead fall through
to the plain-item lookup. -/
theorem c8_unknown_two_field (lib : Library) (itemId p0 p1 : String)
    (hsplit : goSplit '_' itemId = [p0, p1])
    (h1 : p0 ≠ "collection") (h2 : p0 ≠ "season") (h3 : p0 ≠ "episode") :
    usersItemHandler lib itemId = .internalError "Unknown item prefix" := by
  simp only [usersItemHandler, hsplit]
  rw [if_neg h1, if_neg h2, if_neg h3]

/-- **C8 witness.** -/
theorem c8_witness :
    usersItemHandler [] "foo_bar" = .internalError "Unknown item prefix" :=
  c8_unknown_two_field [] "foo_bar" "foo" "bar" (by decide) (by decide)
    (by decide) (by decide)

/-! ## Claim C2 — identifier codec roundtrip -/

theorem goSplit_pfx (body : List Char) (x : String)
    (hbody : ∀ c ∈ body, c ≠ '_') (hx : ∀ c ∈ x.data, c ≠ '_') :
    goSplit '_' (String.mk (body ++ ['_']) ++ x) = [String.mk body, x] := by
  unfold goSplit
  have hdata : (String.mk (body ++ ['_']) ++ x).data = body ++ '_' :: x.data := by
    rw [String.data_append]
    simp
  rw [hdata, splitChar_append_sep _ _ _ hbody, splitChar_no_sep _ _ hx]
  rfl

/-- Evaluating the prefix dispatch once the id is known to split into
exactly two fields. -/
theorem decodeItemId_two (s p0 p1 : String) (h : goSplit '_' s = [p0, p1]) :
    decodeItemId s =
      (if p0 ++ "_" = idPfxCollection then some (.collection, p1)
       else if p0 ++ "_" = idPfxCollectionPlaylist then
         some (.collectionPlaylist, p1)
       else if p0 ++ "_" = idPfxSeason then some (.season, p1)
       else if p0 ++ "_" = idPfxEpisode then some (.episode, p1)
       else if p0 ++ "_" = idPfxPlaylist then some (.playlist, p1)
       else none) := by
  simp only [decodeItemId, h]

/-- **C2, counterexample.**  For the internal id `"a_b"` — which contains
the separator — the roundtrip fails: the encoded id `"collection_a_b"`
splits into three fields, so the decoder does not select any prefix branch
at all (the id is treated as a plain catalog item id). -/
theorem c2_counterexample :
    decodeItemId (encodeItemId ItemIdKind.collection "a_b") ≠
      some (ItemIdKind.collection, "a_b") ∧
    decodeItemId (encodeItemId ItemIdKind.collection "a_b") = none := by
  decide

/-- **C2 (amended).**  For every supported prefix and every internal id that
does not contain the separator character, decoding the encoded external id
yields the original pair. -/
theorem c2_roundtrip (k : ItemIdKind) (x : String)
    (hx : ∀ c ∈ x.data, c ≠ '_') :
    decodeItemId (encodeItemId k x) = some (k, x) := by
  cases k
  case collection =>
    have hpfx : idPfxCollection = String.mk ("collection".data ++ ['_']) := by
      decide
    have he : encodeItemId ItemIdKind.collection x =
        String.mk ("collection".data ++ ['_']) ++ x := by
      show idPfxCollection ++ x = _
      rw [hpfx]
    have hsplit : goSplit '_' (encodeItemId ItemIdKind.collection x) =
        ["collection", x] := by
      rw [he, goSplit_pfx "collection".data x (by decide) hx]
    rw [decodeItemId_two _ _ _ hsplit, if_pos (by decide)]
  case collectionPlaylist =>
    have hpfx : idPfxCollectionPlaylist =
        String.mk ("collection-playlist".data ++ ['_']) := by decide
    have he : encodeItemId ItemIdKind.collectionPlaylist x =
        String.mk ("collection-playlist".data ++ ['_']) ++ x := by
      show idPfxCollectionPlaylist ++ x = _
      rw [hpfx]
    have hsplit : goSplit '_' (encodeItemId ItemIdKind.collectionPlaylist x) =
        ["collection-playlist", x] := by
      rw [he, goSplit_pfx "collection-playlist".data x (by decide) hx]
    rw [decodeItemId_two _ _ _ hsplit, if_neg (by decide), if_pos (by decide)]
  case season =>
    have hpfx : idPfxSeason = String.mk ("season".data ++ ['_']) := by decide
    have he : encodeItemId ItemIdKind.season x =
        String.mk ("season".data ++ ['_']) ++ x := by
      show idPfxSeason ++ x = _
      rw [hpfx]
    have hsplit : goSplit '_' (encodeItemId ItemIdKind.season x) =
        ["season", x] := by
      rw [he, goSplit_pfx "season".data x (by decide) hx]
    rw [decodeItemId_two _ _ _ hsplit, if_neg (by decide), if_neg (by decide),
      if_pos (by decide)]
  case episode =>
    have hpfx : idPfxEpisode = String.mk ("episode".data ++ ['_']) := by decide
    have he : encodeItemId ItemIdKind.episode x =
        String.mk ("episode".data ++ ['_']) ++ x := by
      show idPfxEpisode ++ x = _
      rw [hpfx]
    have hsplit : goSplit '_' (encodeItemId ItemIdKind.episode x) =
        ["episode", x] := by
      rw [he, goSplit_pfx "episode".data x (by decide) hx]
    rw [decodeItemId_two _ _ _ hsplit, if_neg (by decide), if_neg (by decide),
      if_neg (by decide), if_pos (by decide)]
  case playlist =>
    have hpfx : idPfxPlaylist = String.mk ("playlist".data ++ ['_']) := by decide
    have he : encodeItemId ItemIdKind.playlist x =
        String.mk ("playlist".data ++ ['_']) ++ x := by
      show idPfxPlaylist ++ x = _
      rw [hpfx]
    have hsplit : goSplit '_' (encodeItemId ItemIdKind.playlist x) =
        ["playlist", x] := by
      rw [he, goSplit_pfx "playlist".data x (by decide) hx]
    rw [decodeItemId_two _ _ _ hsplit, if_neg (by decide), if_neg (by decide),
      if_neg (by decide), if_neg (by decide), if_pos (by decide)]

/-- **C2 witness.** -/
theorem c2_witness :
    decodeItemId (encodeItemId ItemIdKind.episode "e1") =
      some (ItemIdKind.episode, "e1") :=
  c2_roundtrip ItemIdKind.episode "e1" (by decide)

/-! ## Claim C3 — pagination guards and total-record count -/

/-- **C3.**  The start index applies only when it parses and
`0 ≤ start < length`; the limit only when it parses and
`0 < limit < remaining length`; a malformed or out-of-range integer
silently skips that stage.  For a post-filter list of 10 records,
`startIndex=5&limit=3` returns exactly the 0-indexed slice `[5,8)` while
`totalRecordCount` reports the pre-pagination count 10. -/
theorem c3_pagination :
    (∀ (items : List JFItem) (q : QueryParams) (s : Int),
      goAtoi q.startIndex = some s → 0 ≤ s → s < (items.length : Int) →
      applyStartIndex items q = items.drop s.toNat) ∧
    (∀ (items : List JFItem) (q : QueryParams) (s : Int),
      goAtoi q.startIndex = some s → ¬ (0 ≤ s ∧ s < (items.length : Int)) →
      applyStartIndex items q = items) ∧
    (∀ (items : List JFItem) (q : QueryParams),
      goAtoi q.startIndex = none → applyStartIndex items q = items) ∧
    (∀ (items : List JFItem) (q : QueryParams) (l : Int),
      goAtoi q.limit = some l → 0 < l → l < (items.length : Int) →
      applyLimit items q = items.take l.toNat) ∧
    (∀ (items : List JFItem) (q : QueryParams) (l : Int),
      goAtoi q.limit = some l → ¬ (0 < l ∧ l < (items.length : Int)) →
      applyLimit items q = items) ∧
    (∀ (items : List JFItem) (q : QueryParams),
      goAtoi q.limit = none → applyLimit items q = items) ∧
    (∀ (items : List JFItem), items.length = 10 →
      assembleItemsResponse items { startIndex := "5", limit := "3" } =
        { items := (items.drop 5).take 3, totalRecordCount := 10,
          startIndex := 0 }) := by
  have hstartIn : ∀ (items : List JFItem) (q : QueryParams) (s : Int),
      goAtoi q.startIndex = some s → 0 ≤ s → s < (items.length : Int) →
      applyStartIndex items q = items.drop s.toNat := by
    intro items q s hs h0 hlt
    unfold applyStartIndex
    simp only [hs]
    rw [if_pos ⟨h0, hlt⟩]
  have hlimitIn : ∀ (items : List JFItem) (q : QueryParams) (l : Int),
      goAtoi q.limit = some l → 0 < l → l < (items.length : Int) →
      applyLimit items q = items.take l.toNat := by
    intro items q l hl h0 hlt
    unfold applyLimit
    simp only [hl]
    rw [if_pos ⟨h0, hlt⟩]
  refine ⟨hstartIn, ?_, ?_, hlimitIn, ?_, ?_, ?_⟩
  · intro items q s hs hn
    unfold applyStartIndex
    simp only [hs]
    rw [if_neg hn]
  · intro items q hs
    unfold applyStartIndex
    simp only [hs]
  · intro items q l hl hn
    unfold applyLimit
    simp only [hl]
    rw [if_neg hn]
  · intro items q hl
    unfold applyLimit
    simp only [hl]
  · intro items hlen
    have hsort : applyItemSorting items { startIndex := "5", limit := "3" }
        = items := by
      unfold applyItemSorting
      rw [if_pos rfl]
    have hstart : applyStartIndex items { startIndex := "5", limit := "3" }
        = items.drop 5 :=
      hstartIn items _ 5 (by decide) (by decide) (by rw [hlen]; decide)
    have hl5 : (items.drop 5).length = 5 := by
      rw [List.length_drop, hlen]
    have hlimit : applyLimit (items.drop 5) { startIndex := "5", limit := "3" }
        = (items.drop 5).take 3 :=
      hlimitIn _ _ 3 (by decide) (by decide) (by rw [hl5]; decide)
    unfold assembleItemsResponse applyItemPaginating
    rw [hsort, hstart, hlimit, hlen]
    rfl

/-- **C3 witness.** -/
theorem c3_witness :
    assembleItemsResponse items10 { startIndex := "5", limit := "3" } =
      { items := (items10.drop 5).take 3, totalRecordCount := 10,
        startIndex := 0 } :=
  c3_pagination.2.2.2.2.2.2 items10 (by decide)

/-! ## Claim C7 — latest-items bypasses the sort stage -/

/-- **C7.**  The latest-items listing is pagination applied to the filtered
candidates stably sorted by descending premiere date: the pre-pagination
list is pairwise non-increasing in premiere date and is a permutation of
the filtered candidates, and the result is entirely independent of the
`sortBy`/`sortOrder` parameters (the `applyItemSorting` stage is
bypassed). -/
theorem c7_latest (make : Collection → CItem → JFItem) (lib : Library)
    (q : QueryParams) :
    usersItemsLatest make lib q =
      applyItemPaginating
        (sliceStable premiereAfter (latestCandidates make lib q)) q ∧
    (sliceStable premiereAfter (latestCandidates make lib q)).Pairwise
      (fun a b => ¬ a.premiereDate < b.premiereDate) ∧
    (sliceStable premiereAfter (latestCandidates make lib q)).Perm
      (latestCandidates make lib q) ∧
    (∀ sb so, usersItemsLatest make lib { q with sortBy := sb, sortOrder := so }
      = usersItemsLatest make lib q) := by
  refine ⟨rfl, ?_, sliceStable_perm _ _, fun sb so => rfl⟩
  have hasym : ∀ a b : JFItem,
      premiereAfter a b = true → premiereAfter b a = false := by
    intro a b hab
    simp only [premiereAfter, decide_eq_true_eq] at hab
    simp only [premiereAfter, decide_eq_false_iff_not]
    omega
  have htrans : ∀ a b c : JFItem, premiereAfter b a = false →
      premiereAfter c b = false → premiereAfter c a = false := by
    intro a b c h1 h2
    simp only [premiereAfter, decide_eq_false_iff_not] at h1 h2 ⊢
    omega
  exact (sliceStable_pairwise hasym htrans _).imp
    (fun hab => by simpa [premiereAfter] using hab)

/-! ## Claim C6 — video codec normalization -/

/-- **C6.**  When a descriptor carries technical stream details (and the
language field is long enough for the synthesizer to return at all), the
request succeeds with one media source whose video stream's codec is
normalized through the fixed lookup: `x264`/`h264` become codec `"h264"`
with tag `"avc1"`, `hevc` becomes codec `"hevc"` with tag `"hvc1"`, and any
other codec string passes through unchanged (with no tag) — it is only
logged, never rejected. -/
theorem c6_codec_normalization (fname : String) (n : Nfo)
    (fi : NfoFileInfo) (sd : NfoStreamDetails)
    (h1 : n.fileInfo = some fi) (h2 : fi.streamDetails = some sd)
    (h3 : 3 ≤ sd.audio.language.length) :
    ∃ ms v a, buildMediaSource fname (some n) = some [ms] ∧
      ms.mediaStreams = [v, a] ∧
      ((goToLower sd.video.codec = "x264" ∨ goToLower sd.video.codec = "h264") →
        v.codec = "h264" ∧ v.codecTag = "avc1") ∧
      (goToLower sd.video.codec = "hevc" →
        v.codec = "hevc" ∧ v.codecTag = "hvc1") ∧
      (goToLower sd.video.codec ≠ "x264" → goToLower sd.video.codec ≠ "h264" →
        goToLower sd.video.codec ≠ "hevc" →
        v.codec = sd.video.codec ∧ v.codecTag = "") := by
  unfold buildMediaSource
  simp only [h1, h2]
  rw [if_neg (by omega)]
  refine ⟨_, _, _, rfl, rfl, ?_, ?_, ?_⟩
  · intro hc
    rw [if_pos hc]
    exact ⟨rfl, rfl⟩
  · intro hc
    rw [if_neg (by rw [hc]; decide), if_pos hc]
    exact ⟨rfl, rfl⟩
  · intro hx hh hhv
    rw [if_neg (not_or.mpr ⟨hx, hh⟩), if_neg hhv]
    exact ⟨rfl, rfl⟩

/-- **C6 witness** (unrecognized codec `"vp9"` passes through and the
request succeeds). -/
theorem c6_witness :
    ∃ ms v a, buildMediaSource "f.mp4" (some nfoVp9) = some [ms] ∧
      ms.mediaStreams = [v, a] ∧
      ((goToLower sdVp9.video.codec = "x264" ∨
          goToLower sdVp9.video.codec = "h264") →
        v.codec = "h264" ∧ v.codecTag = "avc1") ∧
      (goToLower sdVp9.video.codec = "hevc" →
        v.codec = "hevc" ∧ v.codecTag = "hvc1") ∧
      (goToLower sdVp9.video.codec ≠ "x264" →
        goToLower sdVp9.video.codec ≠ "h264" →
        goToLower sdVp9.video.codec ≠ "hevc" →
        v.codec = sdVp9.video.codec ∧ v.codecTag = "") :=
  c6_codec_normalization "f.mp4" nfoVp9 fiVp9 sdVp9 rfl rfl (by decide)

/-! ## Claim C9 — cache-control on image responses -/

/-- **C9, counterexample.**  An episode-thumbnail request is locally
resolved (the thumbnail file is served) yet carries no cache-control
metadata, unlike every other resolution path. -/
theorem c9_counterexample :
    (itemsImagesHandler lib1 90 "episode_e1" "Primary" "").isServed = true ∧
    (itemsImagesHandler lib1 90 "episode_e1" "Primary" "").cacheControl? =
      none := by
  decide

/-- **C9 (amended).**  Every locally-resolved or redirected image response
carries the long-lived cache-control value, *except* the episode-thumbnail
path, which serves the file without cache-control metadata. -/
theorem c9_cache_control (lib : Library) (qp : Int)
    (itemId imageType tag : String)
    (hserved : (itemsImagesHandler lib qp itemId imageType tag).isServed
      = true) :
    (itemsImagesHandler lib qp itemId imageType tag).cacheControl? =
      (if isEpisodeThumbReq lib itemId tag then none else some longLivedCache)
      := by
  unfold itemsImagesHandler at hserved ⊢
  unfold isEpisodeThumbReq
  by_cases hr : goHasPfx tag tagPfxRedirect = true
  · simp [hr, ImageOutcome.cacheControl?]
  · by_cases hf : goHasPfx tag tagPfxFile = true
    · simp [hr, hf, ImageOutcome.cacheControl?]
    · simp only [hr, hf, Bool.false_eq_true, if_false, Bool.not_false,
        Bool.true_and] at hserved ⊢
      match hsp : goSplit '_' itemId with
      | [] =>
        simp only [hsp] at hserved ⊢
        match hit : getItemByID lib itemId with
        | none => simp [hit, ImageOutcome.isServed] at hserved
        | some (c, i) =>
          simp only [hit] at hserved ⊢
          by_cases hty : imageType = "Primary"
          · simp [hty, ImageOutcome.cacheControl?]
          · by_cases htyb : imageType = "Backdrop"
            · simp [hty, htyb, ImageOutcome.cacheControl?]
            · simp [hty, htyb, ImageOutcome.isServed] at hserved
      | [p0] =>
        simp only [hsp] at hserved ⊢
        match hit : getItemByID lib itemId with
        | none => simp [hit, ImageOutcome.isServed] at hserved
        | some (c, i) =>
          simp only [hit] at hserved ⊢
          by_cases hty : imageType = "Primary"
          · simp [hty, ImageOutcome.cacheControl?]
          · by_cases htyb : imageType = "Backdrop"
            · simp [hty, htyb, ImageOutcome.cacheControl?]
            · simp [hty, htyb, ImageOutcome.isServed] at hserved
      | [p0, p1] =>
        simp only [hsp] at hserved ⊢
        by_cases hse : p0 = "season"
        · simp only [hse, if_true, reduceIte] at hserved ⊢
          match hsea : getSeasonByID lib (trimToAfterSep itemId) with
          | none => simp [hsea, ImageOutcome.isServed] at hserved
          | some (c, item, season) =>
            simp only [hsea] at hserved ⊢
            by_cases hty : imageType = "Primary"
            · simp [hty, ImageOutcome.cacheControl?]
            · simp [hty, ImageOutcome.isServed] at hserved
        · by_cases hep : p0 = "episode"
          · simp only [hse, hep, if_false, if_true, reduceIte] at hserved ⊢
            match hepi : getEpisodeByID lib (trimToAfterSep itemId) with
            | none => simp [hepi, ImageOutcome.isServed] at hserved
            | some (c, item, s, e) =>
              simp [hepi, ImageOutcome.cacheControl?]
          · simp [hse, hep, ImageOutcome.isServed] at hserved
      | p0 :: p1 :: r2 :: rest =>
        simp only [hsp] at hserved ⊢
        match hit : getItemByID lib itemId with
        | none => simp [hit, ImageOutcome.isServed] at hserved
        | some (c, i) =>
          simp only [hit] at hserved ⊢
          by_cases hty : imageType = "Primary"
          · simp [hty, ImageOutcome.cacheControl?]
          · by_cases htyb : imageType = "Backdrop"
            · simp [hty, htyb, ImageOutcome.cacheControl?]
            · simp [hty, htyb, ImageOutcome.isServed] at hserved

/-- **C9 witness** (a redirect-tag request, which does carry the long-lived
cache-control value). -/
theorem c9_witness :
    (itemsImagesHandler lib1 90 "x" "Primary" "redirect_u").cacheControl? =
      (if isEpisodeThumbReq lib1 "x" "redirect_u" then none
       else some longLivedCache) :=
  c9_cache_control lib1 90 "x" "Primary" "redirect_u" (by decide)

end Notflix
